import Mathlib

/-!
# WbWrenCamera: a shallow embedding

Source: `src/webots/wren/WbWrenCamera.cpp`.

The class members become the fields of `Camera`; the Wren rendering library the
class drives is represented by `Wren`, the set of live GPU objects together with
the chronological list of the library calls that create, delete, wire or read
them.  A member function `f` becomes a function on `World = Camera × Wren`.

C++ `float` and `double` are embedded bit-exactly as IEEE-754 binary32 (`F32`) and
binary64 (`F64`), with the comparison operators of the standard (`NaN` compares
unequal to everything, `-0 == +0`).  The functions `tan` and `atan` of the C
mathematics library are parameters (`Libm`).

C++ `int` is embedded as `Int`.  Where the source multiplies or divides `int`s the
32-bit operation is embedded (`intMul`, `intDiv`): a product wraps modulo `2 ^ 32` and
a division by zero is a fault.  The counter of active effects is incremented and
decremented as an integer (it cannot leave the range of `int` in fewer than `2 ^ 31`
calls).  A call that does not return (a failed `assert`, in a build where assertions
are checked; an integer division fault; `init` and `setFieldOfView` calling each
other without end) has a `Fault` as its `Result`.
-/

set_option linter.dupNamespace false

namespace WbWrenCamera

/-! ## IEEE-754 binary32 -/

/-- A `float`: sign bit, 8-bit biased exponent field, 23-bit fraction field. -/
structure F32 where
  sign : Bool
  exponent : Fin 256
  mantissa : Fin 8388608
deriving DecidableEq, Repr

namespace F32

/-- The literal `0.0f`. -/
def zero : F32 := ⟨false, 0, 0⟩

/-- The literal `-1.0f`. -/
def minusOne : F32 := ⟨true, 127, 0⟩

/-- The literal `1.0f`. -/
def one : F32 := ⟨false, 127, 0⟩

/-- Infinity of the given sign. -/
def inf (s : Bool) : F32 := ⟨s, 255, 0⟩

/-- The quiet NaN produced by invalid operations. -/
def qNaN : F32 := ⟨false, 255, 4194304⟩

def isNaN (a : F32) : Bool := a.exponent.val == 255 && a.mantissa.val != 0

def isInf (a : F32) : Bool := a.exponent.val == 255 && a.mantissa.val == 0

def isZero (a : F32) : Bool := a.exponent.val == 0 && a.mantissa.val == 0

/-- Magnitude of the bit pattern; on non-NaN values it is monotone in `|a|`. -/
def magnitude (a : F32) : Nat := a.exponent.val * 8388608 + a.mantissa.val

/-- Signed magnitude: for non-NaN `a`, `b` the order of the keys is the order of
the values, and `-0` and `+0` share the key `0`. -/
def key (a : F32) : Int := if a.sign then -(a.magnitude : Int) else (a.magnitude : Int)

/-- C++ `a == b` on floats. -/
def eq (a b : F32) : Bool := !a.isNaN && !b.isNaN && a.key == b.key

/-- C++ `a != b` on floats. -/
def ne (a b : F32) : Bool := !(eq a b)

/-- C++ `a > b` on floats. -/
def gt (a b : F32) : Bool := !a.isNaN && !b.isNaN && decide (b.key < a.key)

/-- The float with the given 32-bit pattern. -/
def ofBits (bits : Nat) : F32 :=
  ⟨decide (bits / 2147483648 % 2 = 1), Fin.ofNat (bits / 8388608 % 256), Fin.ofNat (bits % 8388608)⟩

/-- The 32-bit pattern of a float. -/
def toBits (a : F32) : Nat :=
  (if a.sign then 2147483648 else 0) + a.exponent.val * 8388608 + a.mantissa.val

/-- The float whose object representation is the four bytes `b0 b1 b2 b3`
(little-endian, as `memcpy` into a `float` reads them on the supported hosts). -/
def ofBytes (b0 b1 b2 b3 : Fin 256) : F32 :=
  ofBits (b0.val + 256 * b1.val + 65536 * b2.val + 16777216 * b3.val)

/-- Integer significand of a finite value: `|a| = significand * 2 ^ scale`. -/
def significand (a : F32) : Nat :=
  if a.exponent.val = 0 then a.mantissa.val else 8388608 + a.mantissa.val

/-- Binary scale of a finite value: `|a| = significand * 2 ^ scale`. -/
def scale (a : F32) : Int :=
  if a.exponent.val = 0 then -149 else (a.exponent.val : Int) - 150

/-- Round `n / d` to the nearest integer, ties to even (`d > 0`). -/
def roundHalfEven (n d : Nat) : Nat :=
  let q := n / d
  let r := n % d
  if 2 * r > d ∨ (2 * r = d ∧ q % 2 = 1) then q + 1 else q

/-- The loop of `floorLog2`: halve `n` while it is at least 2, at most `fuel` times. -/
def floorLog2Loop : Nat → Nat → Nat
  | 0, _ => 0
  | fuel + 1, n => if 2 ≤ n then floorLog2Loop fuel (n / 2) + 1 else 0

/-- Floor of the binary logarithm of `n` (0 for `n < 2`). -/
def floorLog2 (n : Nat) : Nat := floorLog2Loop n n

/-- The binary32 nearest to `(-1)^s * (n / d) * 2 ^ e` (round to nearest, ties to
even, overflow to infinity, gradual underflow), for `d > 0`. -/
def round (s : Bool) (n d : Nat) (e : Int) : F32 :=
  if n = 0 then ⟨s, 0, 0⟩ else
  -- the value as a quotient of naturals
  let num : Nat := if 0 ≤ e then n * 2 ^ e.toNat else n
  let den : Nat := if 0 ≤ e then d else d * 2 ^ (-e).toNat
  -- floor of the binary logarithm of num / den
  let l0 : Int := (floorLog2 num : Int) - (floorLog2 den : Int)
  let ge : Bool := if 0 ≤ l0 then decide (den * 2 ^ l0.toNat ≤ num) else decide (den ≤ num * 2 ^ (-l0).toNat)
  let l : Int := if ge then l0 else l0 - 1
  -- exponent of the unit in the last place
  let u : Int := max l (-126) - 23
  let m : Nat := if 0 ≤ u then roundHalfEven num (den * 2 ^ u.toNat) else roundHalfEven (num * 2 ^ (-u).toNat) den
  -- a carry out of the significand moves to the next binade
  let m2 : Nat := if m = 16777216 then 8388608 else m
  let u2 : Int := if m = 16777216 then u + 1 else u
  if m2 < 8388608 then ⟨s, 0, Fin.ofNat m2⟩
  else if u2 + 150 > 254 then inf s
  else ⟨s, Fin.ofNat (u2 + 150).toNat, Fin.ofNat (m2 - 8388608)⟩

/-- C++ `a * b` on floats. -/
def mul (a b : F32) : F32 :=
  let s := xor a.sign b.sign
  if a.isNaN || b.isNaN then qNaN
  else if a.isInf || b.isInf then (if a.isZero || b.isZero then qNaN else inf s)
  else round s (a.significand * b.significand) 1 (a.scale + b.scale)

/-- C++ `a / b` on floats. -/
def div (a b : F32) : F32 :=
  let s := xor a.sign b.sign
  if a.isNaN || b.isNaN then qNaN
  else if a.isInf then (if b.isInf then qNaN else inf s)
  else if b.isInf then ⟨s, 0, 0⟩
  else if b.isZero then (if a.isZero then qNaN else inf s)
  else round s a.significand b.significand (a.scale - b.scale)

/-- Conversion `int → float`. -/
def ofInt (i : Int) : F32 := round (decide (i < 0)) i.natAbs 1 0

/-- C++ `a > c` where the float `a` is promoted (exactly) to `double` and `c` is the
positive finite double `num * 2 ^ (-k)`. -/
def gtConst (a : F32) (num k : Nat) : Bool :=
  if a.isNaN || a.sign then false
  else if a.isInf then true
  else if 0 ≤ a.scale then decide (num < a.significand * 2 ^ a.scale.toNat * 2 ^ k)
  else decide (num * 2 ^ (-a.scale).toNat < a.significand * 2 ^ k)

end F32

/-! ## IEEE-754 binary64, `int` -/

/-- A `double`: sign bit, 11-bit biased exponent field, 52-bit fraction field. -/
structure F64 where
  sign : Bool
  exponent : Fin 2048
  mantissa : Fin 4503599627370496
deriving DecidableEq, Repr

namespace F64

/-- Infinity of the given sign. -/
def inf (s : Bool) : F64 := ⟨s, 2047, 0⟩

/-- The quiet NaN produced by invalid operations. -/
def qNaN : F64 := ⟨false, 2047, 2251799813685248⟩

def isNaN (a : F64) : Bool := a.exponent.val == 2047 && a.mantissa.val != 0

def isInf (a : F64) : Bool := a.exponent.val == 2047 && a.mantissa.val == 0

def isZero (a : F64) : Bool := a.exponent.val == 0 && a.mantissa.val == 0

/-- Magnitude of the bit pattern; on non-NaN values it is monotone in `|a|`. -/
def magnitude (a : F64) : Nat := a.exponent.val * 4503599627370496 + a.mantissa.val

/-- Signed magnitude: for non-NaN `a`, `b` the order of the keys is the order of
the values, and `-0` and `+0` share the key `0`. -/
def key (a : F64) : Int := if a.sign then -(a.magnitude : Int) else (a.magnitude : Int)

/-- C++ `a < b` on doubles. -/
def lt (a b : F64) : Bool := !a.isNaN && !b.isNaN && decide (a.key < b.key)

/-- C++ `a > b` on doubles. -/
def gt (a b : F64) : Bool := lt b a

/-- The double with the given 64-bit pattern. -/
def ofBits (bits : Nat) : F64 :=
  ⟨decide (bits / 9223372036854775808 % 2 = 1), Fin.ofNat (bits / 4503599627370496 % 2048),
   Fin.ofNat (bits % 4503599627370496)⟩

/-- Integer significand of a finite value: `|a| = significand * 2 ^ scale`. -/
def significand (a : F64) : Nat :=
  if a.exponent.val = 0 then a.mantissa.val else 4503599627370496 + a.mantissa.val

/-- Binary scale of a finite value: `|a| = significand * 2 ^ scale`. -/
def scale (a : F64) : Int :=
  if a.exponent.val = 0 then -1074 else (a.exponent.val : Int) - 1075

/-- The binary64 nearest to `(-1)^s * (n / d) * 2 ^ e` (round to nearest, ties to
even, overflow to infinity, gradual underflow), for `d > 0`. -/
def round (s : Bool) (n d : Nat) (e : Int) : F64 :=
  if n = 0 then ⟨s, 0, 0⟩ else
  -- the value as a quotient of naturals
  let num : Nat := if 0 ≤ e then n * 2 ^ e.toNat else n
  let den : Nat := if 0 ≤ e then d else d * 2 ^ (-e).toNat
  -- floor of the binary logarithm of num / den
  let l0 : Int := (F32.floorLog2 num : Int) - (F32.floorLog2 den : Int)
  let ge : Bool := if 0 ≤ l0 then decide (den * 2 ^ l0.toNat ≤ num) else decide (den ≤ num * 2 ^ (-l0).toNat)
  let l : Int := if ge then l0 else l0 - 1
  -- exponent of the unit in the last place
  let u : Int := max l (-1022) - 52
  let m : Nat := if 0 ≤ u then F32.roundHalfEven num (den * 2 ^ u.toNat) else F32.roundHalfEven (num * 2 ^ (-u).toNat) den
  -- a carry out of the significand moves to the next binade
  let m2 : Nat := if m = 9007199254740992 then 4503599627370496 else m
  let u2 : Int := if m = 9007199254740992 then u + 1 else u
  if m2 < 4503599627370496 then ⟨s, 0, Fin.ofNat m2⟩
  else if u2 + 1075 > 2046 then inf s
  else ⟨s, Fin.ofNat (u2 + 1075).toNat, Fin.ofNat (m2 - 4503599627370496)⟩

/-- C++ `a * b` on doubles. -/
def mul (a b : F64) : F64 :=
  let s := xor a.sign b.sign
  if a.isNaN || b.isNaN then qNaN
  else if a.isInf || b.isInf then (if a.isZero || b.isZero then qNaN else inf s)
  else round s (a.significand * b.significand) 1 (a.scale + b.scale)

/-- C++ `a / b` on doubles. -/
def div (a b : F64) : F64 :=
  let s := xor a.sign b.sign
  if a.isNaN || b.isNaN then qNaN
  else if a.isInf then (if b.isInf then qNaN else inf s)
  else if b.isInf then ⟨s, 0, 0⟩
  else if b.isZero then (if a.isZero then qNaN else inf s)
  else round s a.significand b.significand (a.scale - b.scale)

/-- Conversion `int → double` (exact on 32-bit values). -/
def ofInt (i : Int) : F64 := round (decide (i < 0)) i.natAbs 1 0

/-- Conversion `float → double` (exact). -/
def ofF32 (a : F32) : F64 :=
  if a.isNaN then qNaN
  else if a.isInf then inf a.sign
  else round a.sign a.significand 1 a.scale

/-- Conversion `double → float` (round to nearest, ties to even). -/
def toF32 (a : F64) : F32 :=
  if a.isNaN then F32.qNaN
  else if a.isInf then F32.inf a.sign
  else F32.round a.sign a.significand 1 a.scale

/-- The library function `ceil`: the least integral value not below `a`. -/
def ceil (a : F64) : F64 :=
  if a.isNaN || a.isInf || a.isZero || decide (0 ≤ a.scale) then a
  else
    let d : Nat := 2 ^ (-a.scale).toNat
    let q : Nat := a.significand / d
    if a.sign then round true q 1 0
    else round false (if a.significand % d = 0 then q else q + 1) 1 0

/-- Conversion `double → int`: truncation towards zero.  For a NaN and for a value
outside the range of `int` the conversion is undefined in C++; the conversion
instruction of the x86-64 hosts then yields `INT_MIN`. -/
def toInt (a : F64) : Int :=
  if a.isNaN || a.isInf then -2147483648
  else
    let t : Nat :=
      if 0 ≤ a.scale then a.significand * 2 ^ a.scale.toNat
      else a.significand / 2 ^ (-a.scale).toNat
    let i : Int := if a.sign then -(t : Int) else (t : Int)
    if -2147483648 ≤ i ∧ i ≤ 2147483647 then i else -2147483648

end F64

/-- Conversion `float → int`: truncation towards zero, with `INT_MIN` where the
conversion is undefined (NaN, or a value outside the range of `int`), as for
`F64.toInt`. -/
def F32.toInt (a : F32) : Int := (F64.ofF32 a).toInt

/-- The value of type `int` congruent to `i` modulo `2 ^ 32`.  Signed overflow is
undefined in C++; on the supported hosts the 32-bit operation wraps. -/
def wrapInt (i : Int) : Int := (i + 2147483648) % 4294967296 - 2147483648

/-- C++ `a * b` on `int`. -/
def intMul (a b : Int) : Int := wrapInt (a * b)

/-- C++ `a / b` on `int` (truncation towards zero).  Division by zero and
`INT_MIN / -1` are undefined in C++ and raise `SIGFPE` on the x86-64 hosts: `none`. -/
def intDiv (a b : Int) : Option Int :=
  if b = 0 ∨ (b = -1 ∧ a = -2147483648) then none else some (Int.tdiv a b)

/-- Modelled from the spec: `qBound` comes from Qt (`qglobal.h`), which is not among
the sources.  There `qBound(min, val, max)` is `qMax(min, qMin(max, val))` with
`qMin(a, b) = (a < b) ? a : b` and `qMax(a, b) = (a < b) ? b : a`; this is the
instance on `double` (a NaN `val` yields `min`). -/
def qBound (min val max : F64) : F64 :=
  let qMin : F64 := if F64.lt max val then max else val
  if F64.lt min qMin then qMin else min

/-- Modelled from the spec: the instance of Qt's `qBound` on `int`. -/
def qBoundInt (min val max : Int) : Int :=
  let qMin : Int := if max < val then max else val
  if min < qMin then qMin else min

/-- The functions of the C mathematics library the class calls besides `ceil`.  The
library is not among the sources and its results are not fixed by a standard: the
functions are parameters of the embedding. -/
structure Libm where
  tan : F64 → F64
  atan : F64 → F64

/-- How a call ends when it does not return. -/
inductive Fault
  | assertion (numActivePostProcessingEffects : Int)
  | integerDivision
  | recursionLimit
deriving DecidableEq, Repr

/-- The result of a call: the state it returns with, or the fault that ends it
(`assertion n`: the assertion of `init` is false, the counter being `n`, and the
program aborts; `integerDivision`: an `int` division faults; `recursionLimit`: the
bound on the depth of the calls between `init` and `setFieldOfView` is exceeded). -/
inductive Result (α : Type)
  | ok (value : α)
  | fault (f : Fault)
deriving DecidableEq, Repr

/-- Continue with `f` when the call has returned. -/
def Result.map {α β : Type} (f : α → β) : Result α → Result β
  | Result.ok a => Result.ok (f a)
  | Result.fault e => Result.fault e

/-- The call has returned. -/
def Result.isOk {α : Type} : Result α → Bool
  | Result.ok _ => true
  | Result.fault _ => false

/-- The state a call that has returned leaves. -/
def Result.get {α : Type} : (r : Result α) → r.isOk = true → α
  | Result.ok a, _ => a

/-! ## Data model -/

/-- Modelled from the spec: the enumeration of the sub-cameras (front, right, back,
left, up, down) is declared in `WbWrenCamera.hpp`, which is not among the sources.
The source relies on `CAMERA_ORIENTATION_FRONT` being the first of the
`CAMERA_ORIENTATION_COUNT` orientations. -/
def CAMERA_ORIENTATION_FRONT : Nat := 0
def CAMERA_ORIENTATION_RIGHT : Nat := 1
def CAMERA_ORIENTATION_BACK : Nat := 2
def CAMERA_ORIENTATION_LEFT : Nat := 3
def CAMERA_ORIENTATION_UP : Nat := 4
def CAMERA_ORIENTATION_DOWN : Nat := 5
def CAMERA_ORIENTATION_COUNT : Nat := 6

/-- The effects `WbWrenPostProcessingEffects` can build for a camera. -/
inductive EffectKind
  | lensDistortion
  | depthOfField
  | motionBlur
  | hdrResolve
  | smaa
  | colorNoise
  | rangeNoise
  | depthResolution
  | noiseMask
deriving DecidableEq, Repr

/-- A frame buffer of the camera: `mCameraFrameBuffer[i]` or `mResultFrameBuffer`. -/
inductive FrameBufferRef
  | camera (i : Nat)
  | result
deriving DecidableEq, Repr

/-- A GPU object, named by the role it plays for the camera.  A non-null pointer
member holds `some` object, `NULL` is `none`. -/
inductive GpuObject
  | camera (i : Nat)
  | viewport (i : Nat)
  | frameBuffer (r : FrameBufferRef)
  | outputTexture (r : FrameBufferRef) (index : Nat)
  | depthTexture (r : FrameBufferRef)
  | effect (k : EffectKind)
  | sphericalCameraMerge
  | texture2d (path : String)
deriving DecidableEq, Repr

/-- The calls into the rendering library (and the two entry points `init` and
`cleanup`) that are recorded. -/
inductive Event
  | cleanupCall
  | initCall (numActivePostProcessingEffects : Int)
  | new (o : GpuObject)
  | delete (o : GpuObject)
  | deleteDead (o : GpuObject)
  | viewportSetFrameBuffer (i : Nat) (fb : Option GpuObject)
  | effectSetInputFrameBuffer (k : EffectKind) (fb : Option GpuObject)
  | frameBufferEnableCopying (enable : Bool)
  | frameBufferCopyPixel (x y : Int)
  | frameBufferCopyContents
  | cameraSetFovy (i : Nat) (fovy : F32)
  | cameraSetAspectRatio (i : Nat) (aspectRatio : F32)
  | cameraInitialized
deriving DecidableEq, Repr

/-- State of the rendering library (the `wr_*` functions of `wren/*.h`, which the
source only calls) as far as the camera can drive it: the objects that are alive,
and the recorded calls in chronological order.  Of the per-object parameters the
vertical field of view and the aspect ratio of the sub-cameras are recorded; sizes,
formats and the other parameters (near, far, clear colour, masks) are not tracked. -/
structure Wren where
  live : List GpuObject
  trace : List Event
deriving DecidableEq, Repr

namespace Wren

def emit (g : Wren) (e : Event) : Wren := { g with trace := g.trace ++ [e] }

/-- Any `wr_*_new` (or a reference taken from the texture cache). -/
def create (g : Wren) (o : GpuObject) : Wren :=
  { live := g.live ++ [o], trace := g.trace ++ [Event.new o] }

/-- Any `wr_*_delete`.  Deleting `NULL` does nothing; deleting an object that is no
longer alive is recorded as `deleteDead`. -/
def delete (g : Wren) (p : Option GpuObject) : Wren :=
  match p with
  | none => g
  | some o =>
    if o ∈ g.live then { live := g.live.erase o, trace := g.trace ++ [Event.delete o] }
    else { g with trace := g.trace ++ [Event.deleteDead o] }

/-- The function `wr_frame_buffer_get_output_texture(fb, index)`. -/
def frameBufferGetOutputTexture (fb : Option GpuObject) (index : Nat) : Option GpuObject :=
  match fb with
  | some (GpuObject.frameBuffer r) => some (GpuObject.outputTexture r index)
  | _ => none

/-- The function `wr_frame_buffer_get_depth_texture(fb)`: `NULL` unless a depth texture
was attached. -/
def frameBufferGetDepthTexture (g : Wren) (fb : Option GpuObject) : Option GpuObject :=
  match fb with
  | some (GpuObject.frameBuffer r) =>
    if GpuObject.depthTexture r ∈ g.live then some (GpuObject.depthTexture r) else none
  | _ => none

end Wren

/-- Modelled from the spec: `WbRgb` is declared in `WbRgb.hpp`, which is not among
the sources.  A value is kept as the constructor call that built it: `WbRgb()`,
`WbRgb(r, g, b)` on three bytes, `WbRgb(r, g, b)` on three floats. -/
inductive WbRgb
  | default
  | ofBytes (r g b : Fin 256)
  | ofFloats (r g b : F32)
deriving DecidableEq, Repr

/-- A `double` that the source obtains from `int`s by division, kept as the
expression that computes it. -/
inductive DoubleExpr
  | ofInt (i : Int)
  | div (a b : DoubleExpr)
deriving DecidableEq, Repr

/-- A vector of two doubles (`WbVector2`). -/
structure WbVector2 where
  x : DoubleExpr
  y : DoubleExpr
deriving DecidableEq, Repr

inductive TextureFormat
  | RGBA16F
  | R32F
deriving DecidableEq, Repr

/-- The data members of `WbWrenCamera` that the embedded functions read or write. -/
structure Camera where
  mWidth : Int
  mHeight : Int
  mNear : F32
  mExposure : F32
  mMinRange : F32
  mMaxRange : F32
  mFieldOfView : F32
  mType : Char
  mAntiAliasing : Bool
  mIsSpherical : Bool
  mIsCopyingEnabled : Bool
  mFirstRenderingCall : Bool
  mTextureFormat : TextureFormat
  mBackgroundColor : WbRgb
  mIsCameraActive : List Bool
  mSphericalFieldOfViewX : F32
  mSphericalFieldOfViewY : F32
  mSphericalFovYCorrectionCoefficient : F32
  mSubCamerasResolutionX : Int
  mSubCamerasResolutionY : Int
  mCamera : List (Option GpuObject)
  mCameraViewport : List (Option GpuObject)
  mCameraFrameBuffer : List (Option GpuObject)
  mResultFrameBuffer : Option GpuObject
  mPostProcessingEffects : List EffectKind
  mSphericalPostProcessingEffect : Option GpuObject
  mNumActivePostProcessingEffects : Int
  mColorNoiseIntensity : F32
  mRangeNoiseIntensity : F32
  mDepthResolution : F32
  mFocusDistance : F32
  mFocusLength : F32
  mIsLensDistortionEnabled : Bool
  mMotionBlurIntensity : F32
  mNoiseMaskTexture : Option GpuObject
  mNoiseMaskTextureFactor : WbVector2
deriving DecidableEq, Repr

/-- The camera object together with the rendering library it drives. -/
structure World where
  cam : Camera
  wren : Wren
deriving DecidableEq, Repr

/-- The flag `mIsCameraActive[i]`. -/
def isActive (c : Camera) (i : Nat) : Bool := c.mIsCameraActive.getD i false

/-- What reading an image file for `setNoiseMask` can yield: the texture is already
in the texture cache, or the file is decoded, or `QImageReader::read` fails. -/
inductive NoiseMaskSource
  | cached (width height : Int)
  | file (width height : Int)
  | unreadable (errorString : String)
deriving DecidableEq, Repr

/-- Modelled from the spec: `tr` comes from Qt; the message a caller receives is
taken to be the source text, which is what `tr` returns when no translation is
installed. -/
def tr (s : String) : String := s

/-! ## Member functions -/

/-- The effect of `a[i] = v` on a member array. -/
def setAt {α : Type} (l : List α) (i : Nat) (v : α) : List α := l.set i v

/-- The loop `for (int i = CAMERA_ORIENTATION_FRONT; i < CAMERA_ORIENTATION_COUNT; ++i)
if (mIsCameraActive[i]) body(i)`. -/
def forActiveCameras (body : Nat → World → World) (w : World) : World :=
  (List.range CAMERA_ORIENTATION_COUNT).foldl
    (fun w i => if isActive w.cam i then body i w else w) w

/-- Source lines 567-572 of `cleanup`: delete the effects of the chain and clear it,
then delete the spherical merge effect and reset its pointer. -/
def deleteEffects (w : World) : World :=
  let g := w.cam.mPostProcessingEffects.foldl
    (fun g k => Wren.delete g (some (GpuObject.effect k))) w.wren
  let g := g.delete w.cam.mSphericalPostProcessingEffect
  { cam := { w.cam with mPostProcessingEffects := [], mSphericalPostProcessingEffect := none },
    wren := g }

/-- Source lines 576-583 of `cleanup`: the body of the loop over the active
sub-cameras. -/
def deleteSubCamera (i : Nat) (w : World) : World :=
  let g := w.wren.delete (w.cam.mCamera.getD i none)
  let g := g.delete (w.cam.mCameraViewport.getD i none)
  let fb := w.cam.mCameraFrameBuffer.getD i none
  let g :=
    if w.cam.mIsSpherical || w.cam.mNumActivePostProcessingEffects != 0 then
      let g := g.delete (Wren.frameBufferGetOutputTexture fb 0)
      let g := g.delete (g.frameBufferGetDepthTexture fb)
      g.delete fb
    else g
  { w with wren := g }

/-- Source lines 587-594 of `cleanup`: delete the result frame buffer, its two
textures and the noise mask texture, and reset `mNoiseMaskTexture`. -/
def deleteResult (w : World) : World :=
  let renderingTexture := Wren.frameBufferGetOutputTexture w.cam.mResultFrameBuffer 0
  let outputTexture := Wren.frameBufferGetOutputTexture w.cam.mResultFrameBuffer 1
  let g := w.wren.delete w.cam.mResultFrameBuffer
  let g := g.delete renderingTexture
  let g := g.delete outputTexture
  let g := g.delete w.cam.mNoiseMaskTexture
  { cam := { w.cam with mNoiseMaskTexture := none }, wren := g }

/-- The private `cleanup`.  Source lines 562-597. -/
def cleanup (w : World) : World :=
  let w : World := { w with wren := w.wren.emit Event.cleanupCall }
  if w.cam.mCamera.getD CAMERA_ORIENTATION_FRONT none = none
      ∨ (w.cam.mIsSpherical = true ∧ w.cam.mSphericalPostProcessingEffect = none) then w
  else deleteResult (forActiveCameras deleteSubCamera (deleteEffects w))

/-- The private `setupCamera(index, width, height)`.  Source lines 599-643.  The size
arguments (for a spherical camera `mSubCamerasResolutionX` and
`mSubCamerasResolutionY`) only reach `wr_frame_buffer_set_size`, which is not
tracked. -/
def setupCamera (index : Nat) (w : World) : World :=
  let g := w.wren.create (GpuObject.camera index)
  let c := { w.cam with mCamera := setAt w.cam.mCamera index (some (GpuObject.camera index)) }
  let g := g.create (GpuObject.viewport index)
  let c := { c with mCameraViewport := setAt c.mCameraViewport index (some (GpuObject.viewport index)) }
  if c.mIsSpherical || c.mNumActivePostProcessingEffects != 0 then
    let fb := GpuObject.frameBuffer (FrameBufferRef.camera index)
    let g := g.create fb
    let c := { c with mCameraFrameBuffer := setAt c.mCameraFrameBuffer index (some fb) }
    -- depth must be rendered to texture for depth of field effect
    let g :=
      if F32.gt c.mFocusDistance F32.zero && F32.gt c.mFocusLength F32.zero then
        g.create (GpuObject.depthTexture (FrameBufferRef.camera index))
      else g
    let g := g.create (GpuObject.outputTexture (FrameBufferRef.camera index) 0)
    { cam := c, wren := g.emit (Event.viewportSetFrameBuffer index (some fb)) }
  else
    { cam := c, wren := g.emit (Event.viewportSetFrameBuffer index c.mResultFrameBuffer) }

/-- The double `M_PI_2`, as `num * 2 ^ (-52)`. -/
def M_PI_2_num : Nat := 7074237752028440

/-- The double `1.230959417`, as `num * 2 ^ (-52)`. -/
def phi_num : Nat := 5543748371709403

/-- The double `3.0 * M_PI_2`, as `num * 2 ^ (-50)`. -/
def three_M_PI_2_num : Nat := 5305678314021330

/-- The double `M_PI_2`. -/
def M_PI_2 : F64 := F64.ofBits 4609753056924675352

/-- The double `M_PI - 0.001`. -/
def M_PI_minus_0_001 : F64 := F64.ofBits 4614254404752232163

/-- The double `0.001`. -/
def double_0_001 : F64 := F64.ofBits 4562254508917369340

/-- The double `0.5`. -/
def double_0_5 : F64 := F64.ofBits 4602678819172646912

/-- The double `1.0`. -/
def double_1 : F64 := F64.ofBits 4607182418800017408

/-- The double `2.0`. -/
def double_2 : F64 := F64.ofBits 4611686018427387904

/-- The double `1.27` converted to `float`, as the assignment of source line 672
stores it. -/
def float_1_27 : F32 := F32.ofBits 1067618140

/-- Source lines 646-647 of `setupSphericalSubCameras`: the two `float` members
`mSphericalFieldOfViewX` and `mSphericalFieldOfViewY`. -/
def setSphericalFieldsOfView (c : Camera) : Camera :=
  let c := { c with mSphericalFieldOfViewX := c.mFieldOfView }
  -- fovX -> fovY
  { c with mSphericalFieldOfViewY :=
      F32.div (F32.mul c.mSphericalFieldOfViewX (F32.ofInt c.mHeight)) (F32.ofInt c.mWidth) }

/-- Source lines 649-668 of `setupSphericalSubCameras`: the choice of the active
sub-cameras. -/
def activateSubCameras (c : Camera) : Camera :=
  let fovX := c.mSphericalFieldOfViewX
  let fovY := c.mSphericalFieldOfViewY
  let c :=
    if fovX.gtConst M_PI_2_num 52 then
      let a := setAt c.mIsCameraActive CAMERA_ORIENTATION_RIGHT true
      { c with mIsCameraActive := setAt a CAMERA_ORIENTATION_LEFT true }
    else c
  let c :=
    if fovY.gtConst phi_num 52 then
      let a := setAt c.mIsCameraActive CAMERA_ORIENTATION_UP true
      { c with mIsCameraActive := setAt a CAMERA_ORIENTATION_DOWN true }
    else c
  if fovX.gtConst three_M_PI_2_num 50 || fovY.gtConst three_M_PI_2_num 50 then
    { c with mIsCameraActive := setAt c.mIsCameraActive CAMERA_ORIENTATION_BACK true }
  else c

/-- The local `lateralCameraNumber` after source lines 649-668. -/
def lateralCameraNumber (c : Camera) : Int :=
  1 + (if c.mSphericalFieldOfViewX.gtConst M_PI_2_num 52 then 2 else 0)
    + (if c.mSphericalFieldOfViewX.gtConst three_M_PI_2_num 50 then 1 else 0)

/-- The local `verticalCameraNumber` after source lines 649-668. -/
def verticalCameraNumber (c : Camera) : Int :=
  1 + (if c.mSphericalFieldOfViewY.gtConst phi_num 52 then 2 else 0)
    + (if c.mSphericalFieldOfViewY.gtConst three_M_PI_2_num 50 then 1 else 0)

/-- The expression `(int)ceil(2.0 / tan(x))` of source lines 680 and 683, for a
`float` `x` (promoted to `double` for `tan`). -/
def idealResolution (libm : Libm) (x : F32) : Int :=
  (F64.div double_2 (libm.tan (F64.ofF32 x))).ceil.toInt

/-- Source lines 679-685 of `setupSphericalSubCameras`: the ideal resolution of the
sub-cameras, as the pair
`(mSubCamerasResolutionX, mSubCamerasResolutionY)`; `none` when the division of
line 681 faults. -/
def idealResolutions (libm : Libm) (c : Camera) : Option (Int × Int) :=
  if c.mHeight > c.mWidth then
    let y := idealResolution libm (F32.div c.mSphericalFieldOfViewY (F32.ofInt c.mHeight))
    (intDiv (intMul y c.mWidth) c.mHeight).map (fun x => (x, y))
  else
    let x := idealResolution libm (F32.div c.mSphericalFieldOfViewX (F32.ofInt c.mWidth))
    let y := (F32.div (F32.mul (F32.mul c.mSphericalFovYCorrectionCoefficient (F32.ofInt x))
      (F32.ofInt c.mHeight)) (F32.ofInt c.mWidth)).toInt
    some (x, y)

/-- Source lines 687-690 of `setupSphericalSubCameras`: the resolution is scaled by
the ratio of the numbers of lateral and vertical sub-cameras. -/
def scaleResolutions (lateral vertical : Int) (r : Int × Int) : Option (Int × Int) :=
  if lateral > vertical then (intDiv (intMul r.2 lateral) vertical).map (fun y => (r.1, y))
  else if lateral < vertical then (intDiv (intMul r.1 vertical) lateral).map (fun x => (x, r.2))
  else some r

/-- Source lines 692-693 of `setupSphericalSubCameras`: the two resolutions are
bounded and stored; `none` stands for a division that faulted before. -/
def storeResolutions (c : Camera) : Option (Int × Int) → Result Camera
  | none => Result.fault Fault.integerDivision
  | some r =>
    Result.ok { c with mSubCamerasResolutionX := qBoundInt 1 r.1 2048,
                       mSubCamerasResolutionY := qBoundInt 1 r.2 2048 }

/-- Source lines 670-676 of `setupSphericalSubCameras`: the correction coefficient. -/
def setCorrectionCoefficient (vertical : Int) (c : Camera) : Camera :=
  if vertical = 1 then
    -- this coefficient is set to work even in the worse case
    let c := { c with mSphericalFovYCorrectionCoefficient := float_1_27 }
    { c with mSphericalFieldOfViewY :=
        F32.mul c.mSphericalFieldOfViewY c.mSphericalFovYCorrectionCoefficient }
  else { c with mSphericalFovYCorrectionCoefficient := F32.one }

/-- Source lines 670-693 of `setupSphericalSubCameras`, with the numbers of lateral
and vertical sub-cameras counted before. -/
def setSubCamerasResolution (libm : Libm) (lateral vertical : Int) (c : Camera) : Result Camera :=
  let c := setCorrectionCoefficient vertical c
  -- compute the ideal resolution of the cameras
  storeResolutions c ((idealResolutions libm c).bind (scaleResolutions lateral vertical))

/-- The private `setupSphericalSubCameras`.  Source lines 645-694. -/
def setupSphericalSubCameras (libm : Libm) (c : Camera) : Result Camera :=
  let c := setSphericalFieldsOfView c
  setSubCamerasResolution libm (lateralCameraNumber c) (verticalCameraNumber c)
    (activateSubCameras c)

/-- One `if (condition) mPostProcessingEffects.append(WbWrenPostProcessingEffects::k(...))`. -/
def appendEffectIf (condition : Bool) (k : EffectKind) (w : World) : World :=
  if condition then
    { cam := { w.cam with mPostProcessingEffects := w.cam.mPostProcessingEffects ++ [k] },
      wren := w.wren.create (GpuObject.effect k) }
  else w

/-- The loop of source lines 734-741 from index `i` on: the effect at index 0 reads
`mCameraFrameBuffer[CAMERA_ORIENTATION_FRONT]`, the others `mResultFrameBuffer`. -/
def setInputFrameBuffers (c : Camera) : Nat → List EffectKind → List Event
  | _, [] => []
  | i, k :: ks =>
    Event.effectSetInputFrameBuffer k
        (if i = 0 then c.mCameraFrameBuffer.getD CAMERA_ORIENTATION_FRONT none
         else c.mResultFrameBuffer)
      :: setInputFrameBuffers c (i + 1) ks

/-- Source lines 700-732 of `setupPostProcessingEffects`: the effects are appended in
this order, each under its condition. -/
def appendEffects (w : World) : World :=
  let c := w.cam
  -- lens distortion
  let w := appendEffectIf c.mIsLensDistortionEnabled EffectKind.lensDistortion w
  -- depth of field
  let w := appendEffectIf (F32.gt c.mFocusDistance F32.zero && F32.gt c.mFocusLength F32.zero)
    EffectKind.depthOfField w
  -- motion blur
  let w := appendEffectIf (F32.gt c.mMotionBlurIntensity F32.zero) EffectKind.motionBlur w
  -- hdr resolve
  let w := appendEffectIf (c.mType == 'c') EffectKind.hdrResolve w
  -- anti-aliasing
  let w := appendEffectIf (c.mAntiAliasing && c.mType == 'c') EffectKind.smaa w
  -- color noise
  let w := appendEffectIf (F32.gt c.mColorNoiseIntensity F32.zero && c.mType == 'c')
    EffectKind.colorNoise w
  -- range noise
  let w := appendEffectIf (F32.gt c.mRangeNoiseIntensity F32.zero && c.mType != 'c')
    EffectKind.rangeNoise w
  -- depth resolution
  let w := appendEffectIf (F32.gt c.mDepthResolution F32.zero && c.mType != 'c')
    EffectKind.depthResolution w
  -- noise masks
  appendEffectIf (c.mNoiseMaskTexture.isSome && c.mType == 'c') EffectKind.noiseMask w

/-- The private `setupPostProcessingEffects`.  Source lines 696-742. -/
def setupPostProcessingEffects (w : World) : World :=
  if w.cam.mNumActivePostProcessingEffects = 0 then w
  else
    let w := appendEffects w
    let inputs := setInputFrameBuffers w.cam 0 w.cam.mPostProcessingEffects
    { w with wren := { w.wren with trace := w.wren.trace ++ inputs } }

/-- The private `setupSphericalPostProcessingEffect`.  Source lines 744-751. -/
def setupSphericalPostProcessingEffect (w : World) : World :=
  if !w.cam.mIsSpherical then w
  else
    { cam := { w.cam with mSphericalPostProcessingEffect := some GpuObject.sphericalCameraMerge },
      wren := w.wren.create GpuObject.sphericalCameraMerge }

/-- The public `setNear`: only `mNear` is a member, the sub-camera parameter is not tracked. -/
def setNear (nearValue : F32) (w : World) : World :=
  { w with cam := { w.cam with mNear := nearValue } }

def setExposure (exposure : F32) (w : World) : World :=
  { w with cam := { w.cam with mExposure := exposure } }

def setMinRange (minRange : F32) (w : World) : World :=
  { w with cam := { w.cam with mMinRange := minRange } }

/-- The public `setBackgroundColor`.  Source lines 358-371. -/
def setBackgroundColor (color : WbRgb) (w : World) : World :=
  if w.cam.mType == 'c' then { w with cam := { w.cam with mBackgroundColor := color } }
  else
    let grey := WbRgb.ofFloats w.cam.mMaxRange w.cam.mMaxRange w.cam.mMaxRange
    { w with cam := { w.cam with mBackgroundColor := grey } }

/-- The public `setMaxRange`.  Source lines 124-135. -/
def setMaxRange (maxRange : F32) (w : World) : World :=
  let w : World := { w with cam := { w.cam with mMaxRange := maxRange } }
  let isRangeFinderOrLidar := w.cam.mType == 'r' || w.cam.mType == 'l'
  if isRangeFinderOrLidar then
    setBackgroundColor (WbRgb.ofFloats w.cam.mMaxRange w.cam.mMaxRange w.cam.mMaxRange) w
  else w

/-- The private `setFovy`.  Source lines 766-771. -/
def setFovy (fov : F32) (w : World) : World :=
  forActiveCameras (fun i w => { w with wren := w.wren.emit (Event.cameraSetFovy i fov) }) w

/-- The private `setAspectRatio`.  Source lines 773-778. -/
def setAspectRatio (aspectRatio : F32) (w : World) : World :=
  forActiveCameras
    (fun i w => { w with wren := w.wren.emit (Event.cameraSetAspectRatio i aspectRatio) }) w

/-- The private `computeFieldOfViewY`, source lines 497-499: the `double` expression
`2 * atan(tan(fovX * 0.5) / aspectRatio)`, returned as a `float`. -/
def computeFieldOfViewY (libm : Libm) (fovX aspectRatio : F64) : F32 :=
  (F64.mul (F64.ofInt 2) (libm.atan (F64.div (libm.tan (F64.mul fovX double_0_5)) aspectRatio))).toF32

/-- Source lines 148-158 and 164-165 of `setFieldOfView`: what a spherical camera
does with `fov` and `aspectRatio` after the field of view is stored. -/
def applySphericalFieldOfView (libm : Libm) (aspectRatio : F64) (fov : F32) (w : World) : World :=
  -- maximum X field of view of the sub-camera is pi / 2
  let limited := fov.gtConst M_PI_2_num 52
  let aspectRatio :=
    if limited then F64.mul aspectRatio (F64.div M_PI_2 (F64.ofF32 fov)) else aspectRatio
  let fov := if limited then M_PI_2.toF32 else fov
  let fieldOfViewY := F64.ofF32 (computeFieldOfViewY libm (F64.ofF32 fov) aspectRatio)
  -- maximum Y field of view of the sub-camera is pi / 2
  let limitedY := F64.gt fieldOfViewY M_PI_2
  let aspectRatio := if limitedY then double_1 else aspectRatio
  let fieldOfViewY := if limitedY then M_PI_2 else fieldOfViewY
  setAspectRatio aspectRatio.toF32 (setFovy fieldOfViewY.toF32 w)

/-- The public `setFieldOfView`, source lines 137-166, with the call of `init` it
contains passed as `initRec`. -/
def setFieldOfViewWith (libm : Libm) (initRec : World → Result World) (fov : F32) (w : World) :
    Result World :=
  let aspectRatio := F64.div (F64.ofInt w.cam.mWidth) (F64.ofInt w.cam.mHeight)
  if w.cam.mIsSpherical then
    let r : Result World :=
      if F32.ne fov w.cam.mFieldOfView then
        initRec (cleanup { w with cam := { w.cam with mFieldOfView := fov } })
      else Result.ok w
    r.map (applySphericalFieldOfView libm aspectRatio fov)
  else
    let w : World := { w with cam := { w.cam with mFieldOfView := fov } }
    -- fovX -> fovY
    let fieldOfViewY := F64.ofF32 (computeFieldOfViewY libm (F64.ofF32 fov) aspectRatio)
    let fieldOfViewY := qBound double_0_001 fieldOfViewY M_PI_minus_0_001
    Result.ok (setAspectRatio aspectRatio.toF32 (setFovy fieldOfViewY.toF32 w))

/-- Source lines 503-531 of `init`, entered once the assertion of line 502 holds
(the `initCall` event records the entry and the value of the counter): the flags,
the texture format, the result frame buffer with its two textures, and the reset of
the active sub-cameras. -/
def initResult (w : World) : World :=
  let g := w.wren.emit (Event.initCall w.cam.mNumActivePostProcessingEffects)
  let g := g.create (GpuObject.outputTexture FrameBufferRef.result 0)
  let g := g.create (GpuObject.outputTexture FrameBufferRef.result 1)
  let g := g.create (GpuObject.frameBuffer FrameBufferRef.result)
  { cam := { w.cam with
      mFirstRenderingCall := true,
      mIsCopyingEnabled := false,
      mTextureFormat := if w.cam.mType == 'c' then TextureFormat.RGBA16F else TextureFormat.R32F,
      mResultFrameBuffer := some (GpuObject.frameBuffer FrameBufferRef.result),
      mIsCameraActive := [true, false, false, false, false, false] },
    wren := g }

/-- Source lines 533-543 of `init`: the sub-cameras. -/
def initSubCameras (libm : Libm) (w : World) : Result World :=
  if w.cam.mIsSpherical then
    (setupSphericalSubCameras libm w.cam).map
      (fun c => setupSphericalPostProcessingEffect (forActiveCameras setupCamera { w with cam := c }))
  else Result.ok (setupCamera CAMERA_ORIENTATION_FRONT w)

/-- Source lines 547-548 of `init`. -/
def initEffects (w : World) : World :=
  if w.cam.mNumActivePostProcessingEffects != 0 then setupPostProcessingEffects w else w

/-- Source lines 550-553 of `init`; `setCamerasOrientations` only sets sub-camera
parameters. -/
def initParameters (w : World) : World :=
  let w := setNear w.cam.mNear w
  let w := setMinRange w.cam.mMinRange w
  setMaxRange w.cam.mMaxRange w

/-- The private `init` up to its call of `setFieldOfView`: source lines 502-553.  The
call ends at line 502 when the assertion `mNumActivePostProcessingEffects >= 0` is
false. -/
def initBegin (libm : Libm) (w : World) : Result World :=
  if w.cam.mNumActivePostProcessingEffects < 0 then
    Result.fault (Fault.assertion w.cam.mNumActivePostProcessingEffects)
  else (initSubCameras libm (initResult w)).map (fun w => initParameters (initEffects w))

/-- The private `init` after its call of `setFieldOfView`: source lines 555-559. -/
def initEnd (w : World) : World :=
  let w := setBackgroundColor w.cam.mBackgroundColor w
  { w with wren := w.wren.emit Event.cameraInitialized }

/-- The private `init`.  Source lines 501-560.  `init` and `setFieldOfView` call each
other; the first argument bounds the depth of these calls, and the fault
`recursionLimit` is the result when it is exceeded. -/
def init (libm : Libm) : Nat → World → Result World
  | 0, _ => Result.fault Fault.recursionLimit
  | fuel + 1, w =>
    match initBegin libm w with
    | Result.fault f => Result.fault f
    | Result.ok w => (setFieldOfViewWith libm (init libm fuel) w.cam.mFieldOfView w).map initEnd

/-- The public `setFieldOfView`. -/
def setFieldOfView (libm : Libm) (fuel : Nat) (fov : F32) (w : World) : Result World :=
  setFieldOfViewWith libm (init libm fuel) fov w

/-- The constructor.  Source lines 45-78.  Members the constructor leaves
uninitialised are written by `init` before they are read; they are given a value
here (`false`, `NULL`, zero). -/
def WbWrenCamera (libm : Libm) (fuel : Nat) (width height : Int)
    (nearValue minRange maxRange fov : F32) (type : Char) (hasAntiAliasing isSpherical : Bool) :
    Result World :=
  let c : Camera := {
    mWidth := width,
    mHeight := height,
    mNear := nearValue,
    mExposure := F32.one,
    mMinRange := minRange,
    mMaxRange := maxRange,
    mFieldOfView := fov,
    mType := type,
    mAntiAliasing := hasAntiAliasing,
    mIsSpherical := isSpherical,
    mIsCopyingEnabled := false,
    mFirstRenderingCall := true,
    mTextureFormat := TextureFormat.R32F,
    mBackgroundColor := WbRgb.default,
    mIsCameraActive := List.replicate CAMERA_ORIENTATION_COUNT false,
    mSphericalFieldOfViewX := F32.zero,
    mSphericalFieldOfViewY := F32.zero,
    mSphericalFovYCorrectionCoefficient := F32.zero,
    mSubCamerasResolutionX := 0,
    mSubCamerasResolutionY := 0,
    mCamera := List.replicate CAMERA_ORIENTATION_COUNT none,
    mCameraViewport := List.replicate CAMERA_ORIENTATION_COUNT none,
    mCameraFrameBuffer := List.replicate CAMERA_ORIENTATION_COUNT none,
    mResultFrameBuffer := none,
    mPostProcessingEffects := [],
    mSphericalPostProcessingEffect := none,
    mNumActivePostProcessingEffects := 0,
    mColorNoiseIntensity := F32.zero,
    mRangeNoiseIntensity := F32.zero,
    mDepthResolution := F32.minusOne,
    mFocusDistance := F32.zero,
    mFocusLength := F32.zero,
    mIsLensDistortionEnabled := false,
    mMotionBlurIntensity := F32.zero,
    mNoiseMaskTexture := none,
    mNoiseMaskTextureFactor := ⟨DoubleExpr.ofInt 0, DoubleExpr.ofInt 0⟩ }
  let c :=
    if type == 'c' || isSpherical then
      { c with mNumActivePostProcessingEffects := c.mNumActivePostProcessingEffects + 1 }
    else c
  init libm fuel { cam := c, wren := { live := [], trace := [] } }

/-- The increment or decrement of `mNumActivePostProcessingEffects`. -/
def bumpCounter (up : Bool) (w : World) : World :=
  { w with cam := { w.cam with mNumActivePostProcessingEffects :=
      if up then w.cam.mNumActivePostProcessingEffects + 1
      else w.cam.mNumActivePostProcessingEffects - 1 } }

/-- The public `setSize`.  Source lines 92-101. -/
def setSize (libm : Libm) (fuel : Nat) (width height : Int) (w : World) : Result World :=
  if width = w.cam.mWidth ∧ height = w.cam.mHeight then Result.ok w
  else
    let w : World := { w with cam := { w.cam with mWidth := width, mHeight := height } }
    init libm fuel (cleanup w)

/-- The public `setMotionBlur`.  Source lines 168-185. -/
def setMotionBlur (libm : Libm) (fuel : Nat) (blur : F32) (w : World) : Result World :=
  if F32.eq blur w.cam.mMotionBlurIntensity then Result.ok w
  else
    let hasStatusChanged := F32.eq w.cam.mMotionBlurIntensity F32.zero || F32.eq blur F32.zero
    let w : World := { w with cam := { w.cam with mMotionBlurIntensity := blur } }
    if hasStatusChanged then
      let w := cleanup w
      let w := bumpCounter (F32.gt w.cam.mMotionBlurIntensity F32.zero) w
      init libm fuel w
    else Result.ok w

/-- The public `setFocus`.  Source lines 187-207. -/
def setFocus (libm : Libm) (fuel : Nat) (distance length : F32) (w : World) : Result World :=
  if w.cam.mIsSpherical
      || (F32.eq distance w.cam.mFocusDistance && F32.eq length w.cam.mFocusLength) then Result.ok w
  else
    let hasStatusChanged :=
      ((F32.eq w.cam.mFocusDistance F32.zero || F32.eq w.cam.mFocusLength F32.zero)
        && (F32.gt distance F32.zero && F32.gt length F32.zero))
      || ((F32.gt w.cam.mFocusDistance F32.zero && F32.gt w.cam.mFocusLength F32.zero)
        && (F32.eq distance F32.zero || F32.eq length F32.zero))
    let w : World := { w with cam := { w.cam with mFocusDistance := distance, mFocusLength := length } }
    if hasStatusChanged then
      let w := cleanup w
      let up := F32.gt w.cam.mFocusDistance F32.zero && F32.gt w.cam.mFocusLength F32.zero
      let w := bumpCounter up w
      init libm fuel w
    else Result.ok w

/-- The public `enableLensDistortion`.  Source lines 209-216. -/
def enableLensDistortion (libm : Libm) (fuel : Nat) (w : World) : Result World :=
  if !w.cam.mIsLensDistortionEnabled then
    let w : World := { w with cam := { w.cam with mIsLensDistortionEnabled := true } }
    let w := cleanup w
    let w := bumpCounter true w
    init libm fuel w
  else Result.ok w

/-- The public `disableLensDistortion`.  Source lines 218-225. -/
def disableLensDistortion (libm : Libm) (fuel : Nat) (w : World) : Result World :=
  if w.cam.mIsLensDistortionEnabled then
    let w : World := { w with cam := { w.cam with mIsLensDistortionEnabled := false } }
    let w := cleanup w
    let w := bumpCounter false w
    init libm fuel w
  else Result.ok w

/-- The public `setColorNoise`.  Source lines 239-256. -/
def setColorNoise (libm : Libm) (fuel : Nat) (colorNoise : F32) (w : World) : Result World :=
  if w.cam.mType != 'c' || F32.eq colorNoise w.cam.mColorNoiseIntensity then Result.ok w
  else
    let hasStatusChanged := F32.eq w.cam.mColorNoiseIntensity F32.zero || F32.eq colorNoise F32.zero
    let w : World := { w with cam := { w.cam with mColorNoiseIntensity := colorNoise } }
    if hasStatusChanged then
      let w := cleanup w
      let w := bumpCounter (F32.gt w.cam.mColorNoiseIntensity F32.zero) w
      init libm fuel w
    else Result.ok w

/-- The public `setRangeNoise`.  Source lines 258-275. -/
def setRangeNoise (libm : Libm) (fuel : Nat) (rangeNoise : F32) (w : World) : Result World :=
  if (w.cam.mType != 'r' && w.cam.mType != 'l') || F32.eq rangeNoise w.cam.mRangeNoiseIntensity then
    Result.ok w
  else
    let hasStatusChanged := F32.eq w.cam.mRangeNoiseIntensity F32.zero || F32.eq rangeNoise F32.zero
    let w : World := { w with cam := { w.cam with mRangeNoiseIntensity := rangeNoise } }
    if hasStatusChanged then
      let w := cleanup w
      let w := bumpCounter (F32.gt w.cam.mRangeNoiseIntensity F32.zero) w
      init libm fuel w
    else Result.ok w

/-- The public `setRangeResolution`.  Source lines 277-295. -/
def setRangeResolution (libm : Libm) (fuel : Nat) (resolution : F32) (w : World) : Result World :=
  if (w.cam.mType != 'r' && w.cam.mType != 'l') || F32.eq resolution w.cam.mDepthResolution then
    Result.ok w
  else
    -- A value of -1 signifies disabled, see WbRangeFinder::applyResolutionToWren()
    let hasStatusChanged := F32.eq w.cam.mDepthResolution F32.minusOne || F32.eq resolution F32.minusOne
    let w : World := { w with cam := { w.cam with mDepthResolution := resolution } }
    if hasStatusChanged then
      let w := cleanup w
      let w := bumpCounter (F32.ne w.cam.mDepthResolution F32.minusOne) w
      init libm fuel w
    else Result.ok w

/-- The public `setNoiseMask`, source lines 297-356; `source` is what the texture
cache and the image reader answer for `noiseMaskTexturePath`.  The result is the
returned message and the new state. -/
def setNoiseMask (libm : Libm) (fuel : Nat) (source : NoiseMaskSource)
    (noiseMaskTexturePath : String) (w : World) : Result (String × World) :=
  if (w.cam.mType == 'r' || w.cam.mType == 'l') || w.cam.mIsSpherical then
    Result.ok (tr "Noise mask can only be applied to RGB non-spherical cameras", w)
  else
    let w := cleanup w
    let texture := GpuObject.texture2d noiseMaskTexturePath
    -- source lines 332-355, once the texture of the given size is there
    let finish (textureWidth textureHeight : Int) (w : World) : Result (String × World) :=
      let one := DoubleExpr.ofInt 1
      let diffW := textureWidth - w.cam.mWidth
      let diffH := textureHeight - w.cam.mHeight
      let ratio := DoubleExpr.div (DoubleExpr.ofInt w.cam.mWidth) (DoubleExpr.ofInt w.cam.mHeight)
      let factor : WbVector2 :=
        if diffW < 0 ∨ diffH < 0 then
          if diffW > diffH then ⟨ratio, one⟩ else ⟨one, DoubleExpr.div one ratio⟩
        else
          ⟨DoubleExpr.div (DoubleExpr.ofInt w.cam.mWidth) (DoubleExpr.ofInt textureWidth),
           DoubleExpr.div (DoubleExpr.ofInt w.cam.mHeight) (DoubleExpr.ofInt textureHeight)⟩
      let w : World := { w with cam := { w.cam with mNoiseMaskTextureFactor := factor } }
      let w := bumpCounter w.cam.mNoiseMaskTexture.isSome w
      (init libm fuel w).map (fun w => ("", w))
    match source with
    | NoiseMaskSource.cached textureWidth textureHeight =>
      -- wr_texture_2d_copy_from_cache found the texture
      finish textureWidth textureHeight
        { cam := { w.cam with mNoiseMaskTexture := some texture }, wren := w.wren.create texture }
    | NoiseMaskSource.unreadable errorString =>
      -- the cache gave NULL and the image cannot be read: return without init
      let w : World := { w with cam := { w.cam with mNoiseMaskTexture := none } }
      Result.ok (tr "Cannot load " ++ noiseMaskTexturePath ++ ": " ++ errorString, w)
    | NoiseMaskSource.file textureWidth textureHeight =>
      -- the cache gave NULL, the texture is built from the image
      finish textureWidth textureHeight
        { cam := { w.cam with mNoiseMaskTexture := some texture }, wren := w.wren.create texture }

/-- The public `enableCopying`.  Source lines 427-439. -/
def enableCopying (enable : Bool) (w : World) : World :=
  if enable && !w.cam.mIsCopyingEnabled then
    { cam := { w.cam with mIsCopyingEnabled := true },
      wren := w.wren.emit (Event.frameBufferEnableCopying true) }
  else if !enable && w.cam.mIsCopyingEnabled then
    { cam := { w.cam with mIsCopyingEnabled := false },
      wren := w.wren.emit (Event.frameBufferEnableCopying false) }
  else w

/-- Four bytes written by `wr_frame_buffer_copy_pixel`. -/
structure PixelData where
  b0 : Fin 256
  b1 : Fin 256
  b2 : Fin 256
  b3 : Fin 256
deriving DecidableEq, Repr

/-- The public `copyPixelColourValue`, source lines 441-467; `readPixel x y` is what
`wr_frame_buffer_copy_pixel` stores in `pixelData` for output texture 1 of the
result frame buffer. -/
def copyPixelColourValue (readPixel : Int → Int → PixelData) (x y : Int) (w : World) :
    WbRgb × World :=
  if w.cam.mWidth < 1 ∨ w.cam.mHeight < 1 ∨ !isActive w.cam CAMERA_ORIENTATION_FRONT then
    (WbRgb.default, w)
  else
    let wasCopyingEnabled := w.cam.mIsCopyingEnabled
    let w := enableCopying true w
    let pixelData := readPixel x y
    let w : World := { w with wren := w.wren.emit (Event.frameBufferCopyPixel x y) }
    let w := enableCopying wasCopyingEnabled w
    let result :=
      if w.cam.mType == 'c' then
        -- convert BGR to RGB
        WbRgb.ofBytes pixelData.b2 pixelData.b1 pixelData.b0
      else
        let value := F32.ofBytes pixelData.b0 pixelData.b1 pixelData.b2 pixelData.b3
        WbRgb.ofFloats value value value
    (result, w)

/-- The bytes at and after a `void *`, by offset. -/
abbrev Memory := Nat → Fin 256

/-- The library function `memset(data, 0, n)`. -/
def memsetZero (data : Memory) (n : Nat) : Memory := fun i => if i < n then 0 else data i

/-- Conversion `int → size_t` (64 bits): the value modulo `2 ^ 64`. -/
def toSizeT (i : Int) : Nat := (i % 18446744073709551616).toNat

/-- The public `copyContentsToMemory`, source lines 469-481; `data` is `none` for a
null pointer, and `copyContents m` is the memory `wr_frame_buffer_copy_contents`
leaves when it copies output texture 1 of the result frame buffer to `m`. -/
def copyContentsToMemory (copyContents : Memory → Memory) (data : Option Memory) (w : World) :
    Option Memory × World :=
  match data with
  | none => (none, w)
  | some m =>
    if !w.cam.mIsCopyingEnabled ∨ w.cam.mWidth < 1 ∨ w.cam.mHeight < 1 then (some m, w)
    else if !isActive w.cam CAMERA_ORIENTATION_FRONT then
      (some (memsetZero m (toSizeT (intMul (intMul w.cam.mWidth w.cam.mHeight) 4))), w)
    else
      (some (copyContents m), { w with wren := w.wren.emit Event.frameBufferCopyContents })

/-- The eight setters that react to a change of one property. -/
inductive Setter
  | setSize (width height : Int)
  | setMotionBlur (blur : F32)
  | setFocus (distance length : F32)
  | setColorNoise (colorNoise : F32)
  | setRangeNoise (rangeNoise : F32)
  | setRangeResolution (resolution : F32)
  | enableLensDistortion
  | disableLensDistortion
deriving DecidableEq, Repr

/-- Calling a setter on a camera. -/
def Setter.call (libm : Libm) (fuel : Nat) : Setter → World → Result World
  | Setter.setSize width height => WbWrenCamera.setSize libm fuel width height
  | Setter.setMotionBlur blur => WbWrenCamera.setMotionBlur libm fuel blur
  | Setter.setFocus distance length => WbWrenCamera.setFocus libm fuel distance length
  | Setter.setColorNoise colorNoise => WbWrenCamera.setColorNoise libm fuel colorNoise
  | Setter.setRangeNoise rangeNoise => WbWrenCamera.setRangeNoise libm fuel rangeNoise
  | Setter.setRangeResolution resolution => WbWrenCamera.setRangeResolution libm fuel resolution
  | Setter.enableLensDistortion => WbWrenCamera.enableLensDistortion libm fuel
  | Setter.disableLensDistortion => WbWrenCamera.disableLensDistortion libm fuel

/-! ## Sample cameras -/

/-- The function `tan` of `sampleLibm`. -/
def sampleTan (x : F64) : F64 :=
  if x = F64.ofBits 4602678819172646912 then F64.ofBits 4603095874924660554 else
  if x = F64.ofBits 4587235058984681472 then F64.ofBits 4587240746427229230 else
  if x = F64.ofBits 4605249457494163456 then F64.ofBits 4607182418996876012 else
  if x = F64.ofBits 4595503732707295232 then F64.ofBits 4595569858651985029 else
  if x = F64.ofBits 4603718967909941248 then F64.ofBits 4604544271204933263 else
  if x = F64.ofBits 4599304068484038656 then F64.ofBits 4599495081314680423 else
  if x = F64.ofBits 4602541617516118016 then F64.ofBits 4603007167799382641 else
  x

/-- The function `atan` of `sampleLibm`. -/
def sampleAtan (x : F64) : F64 :=
  if x = F64.ofBits 4601052602986982127 then F64.ofBits 4600676759851345980 else
  if x = F64.ofBits 4610059802241723119 then F64.ofBits 4607285721630487334 else
  if x = F64.ofBits 4609434219096976686 then F64.ofBits 4607027438734273271 else
  if x = F64.ofBits 4604544271204933263 then F64.ofBits 4603718967909941248 else
  if x = F64.ofBits 4604215154862909197 then F64.ofBits 4603495757177984518 else
  x

/-- A mathematics library for the sample cameras: `tan` and `atan` answer as the C
library of a Linux host does at the arguments the samples below pass (for instance
`tan(0.5) = 0.5463024898437905`), and with their argument elsewhere. -/
def sampleLibm : Libm := ⟨sampleTan, sampleAtan⟩

/-- A 64x48 range finder, as the constructor leaves it. -/
def rangeFinder : Result World :=
  WbWrenCamera sampleLibm 1 64 48 F32.one F32.zero F32.one F32.one 'r' false false

/-- A 64x48 planar colour camera with anti-aliasing, as the constructor leaves it. -/
def colourCamera : Result World :=
  WbWrenCamera sampleLibm 1 64 48 F32.one F32.zero F32.one F32.one 'c' true false

/-- The state of the sample range finder. -/
def rangeFinderWorld : World := rangeFinder.get (by decide)

/-- The state of the sample colour camera. -/
def colourCameraWorld : World := colourCamera.get (by decide)

/-- A 64x48 spherical colour camera whose field of view is `3.1415927f`, as the
constructor leaves it. -/
def sphericalCamera : Result World :=
  WbWrenCamera sampleLibm 1 64 48 F32.one F32.zero F32.one (F32.ofBits 1078530011) 'c' true true

set_option maxRecDepth 8192 in
/-- The state of the sample spherical camera. -/
def sphericalCameraWorld : World := sphericalCamera.get (by decide)

/-! ## Notions the statements use -/

/-- The members to which neither `cleanup` nor `init` writes a new value (used to
state what these two functions preserve). -/
def Camera.settings (c : Camera) :
    Int × Int × Char × Bool × Bool × Int × F32 × F32 × F32 × F32 × F32 × F32 × F32 × Bool :=
  (c.mWidth, c.mHeight, c.mType, c.mAntiAliasing, c.mIsSpherical, c.mNumActivePostProcessingEffects,
   c.mFieldOfView, c.mMotionBlurIntensity, c.mFocusDistance, c.mFocusLength,
   c.mColorNoiseIntensity, c.mRangeNoiseIntensity, c.mDepthResolution, c.mIsLensDistortionEnabled)

/-- Two cameras agree on the members the setters compare their arguments with. -/
def sameProperties (a b : Camera) : Prop :=
  a.mWidth = b.mWidth ∧ a.mHeight = b.mHeight ∧ a.mType = b.mType
    ∧ a.mIsSpherical = b.mIsSpherical ∧ a.mMotionBlurIntensity = b.mMotionBlurIntensity
    ∧ a.mFocusDistance = b.mFocusDistance ∧ a.mFocusLength = b.mFocusLength
    ∧ a.mColorNoiseIntensity = b.mColorNoiseIntensity
    ∧ a.mRangeNoiseIntensity = b.mRangeNoiseIntensity
    ∧ a.mDepthResolution = b.mDepthResolution
    ∧ a.mIsLensDistortionEnabled = b.mIsLensDistortionEnabled

/-- The states in which `init` and `setFieldOfView` call each other without end: a
spherical camera whose field of view is a NaN (`fov != mFieldOfView` is then true on
every call of `setFieldOfView(mFieldOfView)`). -/
def diverges (c : Camera) : Bool := c.mIsSpherical && c.mFieldOfView.isNaN

/-- The entries of `init` and `cleanup` among the recorded calls. -/
def isLifecycle : Event → Bool
  | Event.cleanupCall => true
  | Event.initCall _ => true
  | _ => false

/-- The fixed order of the post-processing chain, as the specification lists it:
lens distortion, depth of field, motion blur, HDR resolve, anti-aliasing (SMAA),
colour noise, range noise, depth resolution, noise mask. -/
def effectOrder : List EffectKind :=
  [EffectKind.lensDistortion, EffectKind.depthOfField, EffectKind.motionBlur,
   EffectKind.hdrResolve, EffectKind.smaa, EffectKind.colorNoise, EffectKind.rangeNoise,
   EffectKind.depthResolution, EffectKind.noiseMask]

/-- The condition under which the specification puts an effect into the chain of a
camera. -/
def effectCondition (c : Camera) : EffectKind → Bool
  | EffectKind.lensDistortion => c.mIsLensDistortionEnabled
  | EffectKind.depthOfField => F32.gt c.mFocusDistance F32.zero && F32.gt c.mFocusLength F32.zero
  | EffectKind.motionBlur => F32.gt c.mMotionBlurIntensity F32.zero
  | EffectKind.hdrResolve => c.mType == 'c'
  | EffectKind.smaa => c.mAntiAliasing && c.mType == 'c'
  | EffectKind.colorNoise => F32.gt c.mColorNoiseIntensity F32.zero && c.mType == 'c'
  | EffectKind.rangeNoise => F32.gt c.mRangeNoiseIntensity F32.zero && c.mType != 'c'
  | EffectKind.depthResolution => F32.gt c.mDepthResolution F32.zero && c.mType != 'c'
  | EffectKind.noiseMask => c.mNoiseMaskTexture.isSome && c.mType == 'c'

/-- The frame buffer the specification gives each effect of a chain as input: the
first one the frame buffer of the front sub-camera, every later one the result frame
buffer. -/
def chainInputs (c : Camera) : List EffectKind → List Event
  | [] => []
  | k :: ks =>
    Event.effectSetInputFrameBuffer k (c.mCameraFrameBuffer.getD CAMERA_ORIENTATION_FRONT none)
      :: ks.map (fun k => Event.effectSetInputFrameBuffer k c.mResultFrameBuffer)

/-- The value source line 647 gives `mSphericalFieldOfViewY`: `fovX * mHeight / mWidth`
with `fovX = mFieldOfView`, computed in `float`. -/
def sphericalFieldOfViewY (c : Camera) : F32 :=
  F32.div (F32.mul c.mFieldOfView (F32.ofInt c.mHeight)) (F32.ofInt c.mWidth)

/-- The sub-cameras the specification expects to be active after `init`, in the order
front, right, back, left, up, down: for a spherical camera right and left when `fovX`
exceeds `M_PI_2`, up and down when `fovY` exceeds `1.230959417`, back when `fovX` or
`fovY` exceeds `3.0 * M_PI_2`; otherwise the front one only. -/
def expectedActive (c : Camera) : List Bool :=
  if c.mIsSpherical then
    let lateral := c.mFieldOfView.gtConst M_PI_2_num 52
    let vertical := (sphericalFieldOfViewY c).gtConst phi_num 52
    let back := c.mFieldOfView.gtConst three_M_PI_2_num 50
      || (sphericalFieldOfViewY c).gtConst three_M_PI_2_num 50
    [true, lateral, back, lateral, vertical, vertical]
  else [true, false, false, false, false, false]

/-- The claim's `fovY`: the exact quotient `fovX * height / width`, with `fovX` the
value of the field of view. -/
def exactFieldOfViewY (c : Camera) : ℚ :=
  (if c.mFieldOfView.sign then -1 else 1) * (c.mFieldOfView.significand : ℚ)
    * (2 : ℚ) ^ c.mFieldOfView.scale * (c.mHeight : ℚ) / (c.mWidth : ℚ)

/-- The exact value of a finite float, as a rational number. -/
def F32.toRat (a : F32) : ℚ :=
  (if a.sign then -1 else 1) * (a.significand : ℚ) * (2 : ℚ) ^ a.scale

/-- The float `a` is greater than the real number `r`: `a` is not a NaN, and it is
positive infinity or a finite float whose value exceeds `r`. -/
def F32.exceeds (a : F32) (r : ℝ) : Prop :=
  a.isNaN = false ∧ (a = F32.inf false ∨ (a.exponent.val ≠ 255 ∧ r < ((a.toRat : ℚ) : ℝ)))

/-- The indices of the active sub-cameras, in increasing order. -/
def activeCameras (c : Camera) : List Nat :=
  (List.range CAMERA_ORIENTATION_COUNT).filter (isActive c)

/-- The aspect ratio the amended claim gives the sub-cameras: `width / height`
rounded to `double` and then to `float`. -/
def appliedAspectRatio (c : Camera) : F32 :=
  (F64.div (F64.ofInt c.mWidth) (F64.ofInt c.mHeight)).toF32

/-- The vertical field of view the amended claim gives the sub-cameras of a planar
camera: `2 * atan(tan(fov * 0.5) / (width / height))` evaluated in `double`
arithmetic with the library's `tan` and `atan` and rounded to `float`, clamped to
the doubles `0.001` and `M_PI - 0.001`, and rounded to `float` again. -/
def appliedFieldOfViewY (libm : Libm) (fov : F32) (c : Camera) : F32 :=
  let aspectRatio := F64.div (F64.ofInt c.mWidth) (F64.ofInt c.mHeight)
  let unclamped : F32 :=
    (F64.mul (F64.ofInt 2)
      (libm.atan (F64.div (libm.tan (F64.mul (F64.ofF32 fov) double_0_5)) aspectRatio))).toF32
  (qBound double_0_001 (F64.ofF32 unclamped) M_PI_minus_0_001).toF32

/-- A state of the given size in which copying is enabled and the front sub-camera
is inactive (the state of the sample range finder otherwise). -/
def inactiveFrontWorld (width height : Int) : World :=
  { rangeFinderWorld with cam := { rangeFinderWorld.cam with
      mWidth := width, mHeight := height, mIsCopyingEnabled := true,
      mIsCameraActive := List.replicate CAMERA_ORIENTATION_COUNT false } }

/-- A planar colour camera of width 1 and height 3, as the constructor leaves it. -/
def tallCamera : Result World :=
  WbWrenCamera sampleLibm 1 1 3 F32.one F32.zero F32.one F32.one 'c' true false

/-- A 7x7 spherical colour camera whose field of view is `1.2309594f` (bit pattern
1067290644), as the constructor leaves it. -/
def squareSphericalCamera : Result World :=
  WbWrenCamera sampleLibm 1 7 7 F32.one F32.zero F32.one (F32.ofBits 1067290644) 'c' true true

/-- A 4x5 spherical colour camera whose field of view is `0.98476756f` (bit pattern
1065097658), as the constructor leaves it. -/
def uprightSphericalCamera : Result World :=
  WbWrenCamera sampleLibm 1 4 5 F32.one F32.zero F32.one (F32.ofBits 1065097658) 'c' true true

/-! ## Facts about float comparison -/

theorem F32.eq_of_nan_left {a b : F32} (h : a.isNaN = true) : F32.eq a b = false := by
  simp [F32.eq, h]

theorem F32.eq_self_false {a : F32} (h : F32.eq a a = false) : a.isNaN = true := by
  simp [F32.eq] at h
  cases hn : a.isNaN <;> simp_all

theorem F32.eq_false_of_eq_self_false {a : F32} (h : F32.eq a a = false) (b : F32) :
    F32.eq a b = false := F32.eq_of_nan_left (F32.eq_self_false h)

theorem F32.gt_zero_of_eq_zero {a : F32} (h : F32.eq a F32.zero = true) :
    F32.gt a F32.zero = false := by
  simp [F32.eq, F32.gt] at *
  intro _ _
  have : F32.zero.key = 0 := by decide
  omega

/-! ## Results of calls -/

theorem Result.map_eq_ok {α β : Type} {f : α → β} {r : Result α} {b : β}
    (h : r.map f = Result.ok b) : ∃ a, r = Result.ok a ∧ f a = b := by
  cases r with
  | ok a => exact ⟨a, rfl, by simpa [Result.map] using h⟩
  | fault e => simp [Result.map] at h

theorem Result.map_ok {α β : Type} (f : α → β) (a : α) :
    (Result.ok a).map f = Result.ok (f a) := rfl

/-! ## Rejected noise masks, pixel and frame read-back -/

/-- C1: on a range finder, a lidar or a spherical camera `setNoiseMask` returns the
message "Noise mask can only be applied to RGB non-spherical cameras" and leaves the
whole state as it was: the counter, the noise-mask texture, the live GPU objects and
the recorded calls (so neither `cleanup` nor `init` has run), whatever the path and
whatever the image reader would answer. -/
theorem setNoiseMask_rejected (libm : Libm) (fuel : Nat) (source : NoiseMaskSource) (path : String)
    (w : World) (h : w.cam.mType = 'r' ∨ w.cam.mType = 'l' ∨ w.cam.mIsSpherical = true) :
    setNoiseMask libm fuel source path w
      = Result.ok ("Noise mask can only be applied to RGB non-spherical cameras", w) := by
  unfold setNoiseMask
  rcases h with h | h | h <;> simp [h, tr]

/-- The rejection of a noise mask on the sample range finder. -/
theorem setNoiseMask_rejected_witness :
    setNoiseMask sampleLibm 0 (NoiseMaskSource.file 8 8) "mask.png" rangeFinderWorld
      = Result.ok ("Noise mask can only be applied to RGB non-spherical cameras", rangeFinderWorld) :=
  setNoiseMask_rejected sampleLibm 0 (NoiseMaskSource.file 8 8) "mask.png" rangeFinderWorld
    (Or.inl (by decide))

theorem enableCopying_cam (b : Bool) (w : World) :
    (enableCopying b w).cam = { w.cam with mIsCopyingEnabled := b } := by
  obtain ⟨c, g⟩ := w
  cases c
  rename_i e _ _ _ _ _ _ _ _ _ _ _ _ _ _ _ _ _ _ _ _ _ _ _ _ _
  cases b <;> cases e <;> simp [enableCopying]

/-- C2: `copyPixelColourValue(x, y)` returns `WbRgb()` when the width or the height is
below 1 or the front sub-camera is inactive; otherwise, with `p` the four bytes read
from the result frame buffer, a colour camera returns `WbRgb(p[2], p[1], p[0])` and a
range finder or lidar returns `WbRgb(v, v, v)` for the float `v` stored in `p`. -/
theorem copyPixelColourValue_value (readPixel : Int → Int → PixelData) (x y : Int) (w : World) :
    ((w.cam.mWidth < 1 ∨ w.cam.mHeight < 1 ∨ isActive w.cam CAMERA_ORIENTATION_FRONT = false) →
      (copyPixelColourValue readPixel x y w).1 = WbRgb.default)
    ∧ (1 ≤ w.cam.mWidth → 1 ≤ w.cam.mHeight → isActive w.cam CAMERA_ORIENTATION_FRONT = true →
        (w.cam.mType = 'c' →
          (copyPixelColourValue readPixel x y w).1
            = WbRgb.ofBytes (readPixel x y).b2 (readPixel x y).b1 (readPixel x y).b0)
        ∧ (w.cam.mType = 'r' ∨ w.cam.mType = 'l' →
          (copyPixelColourValue readPixel x y w).1
            = WbRgb.ofFloats
                (F32.ofBytes (readPixel x y).b0 (readPixel x y).b1 (readPixel x y).b2 (readPixel x y).b3)
                (F32.ofBytes (readPixel x y).b0 (readPixel x y).b1 (readPixel x y).b2 (readPixel x y).b3)
                (F32.ofBytes (readPixel x y).b0 (readPixel x y).b1 (readPixel x y).b2 (readPixel x y).b3))) := by
  refine ⟨?_, ?_⟩
  · intro h
    unfold copyPixelColourValue
    rw [if_pos]
    rcases h with h | h | h
    · exact Or.inl h
    · exact Or.inr (Or.inl h)
    · exact Or.inr (Or.inr (by simp [h]))
  · intro hw hh ha
    have hguard : ¬ (w.cam.mWidth < 1 ∨ w.cam.mHeight < 1
        ∨ (!isActive w.cam CAMERA_ORIENTATION_FRONT) = true) := by
      simp [ha]; omega
    constructor
    · intro hc
      unfold copyPixelColourValue
      rw [if_neg hguard]
      simp [enableCopying_cam, hc]
    · intro hc
      have hne : (w.cam.mType == 'c') = false := by
        rcases hc with hc | hc <;> rw [hc] <;> decide
      unfold copyPixelColourValue
      rw [if_neg hguard]
      simp [enableCopying_cam, hne]

/-- The pixel value read on the sample range finder (the bytes of `1.0f`) and on the
sample colour camera (BGR bytes 10, 20, 30). -/
theorem copyPixelColourValue_value_witness :
    (copyPixelColourValue (fun _ _ => ⟨0, 0, 128, 63⟩) 3 4 rangeFinderWorld).1
        = WbRgb.ofFloats F32.one F32.one F32.one
    ∧ (copyPixelColourValue (fun _ _ => ⟨10, 20, 30, 255⟩) 3 4 colourCameraWorld).1
        = WbRgb.ofBytes 30 20 10 :=
  ⟨((copyPixelColourValue_value (fun _ _ => ⟨0, 0, 128, 63⟩) 3 4 rangeFinderWorld).2
      (by decide) (by decide) (by decide)).2 (Or.inl (by decide)),
   ((copyPixelColourValue_value (fun _ _ => ⟨10, 20, 30, 255⟩) 3 4 colourCameraWorld).2
      (by decide) (by decide) (by decide)).1 (by decide)⟩

theorem wrapInt_of_range {i : Int} (h1 : -2147483648 ≤ i) (h2 : i ≤ 2147483647) :
    wrapInt i = i := by
  unfold wrapInt
  omega

theorem memsetLength_of_fits {width height : Int} (hw : 1 ≤ width) (hh : 1 ≤ height)
    (hfit : width * height * 4 ≤ 2147483647) :
    toSizeT (intMul (intMul width height) 4) = (width * height * 4).toNat := by
  have hp : 1 ≤ width * height := by nlinarith
  unfold intMul
  generalize width * height = p at hp hfit ⊢
  have h1 : wrapInt p = p := wrapInt_of_range (by omega) (by omega)
  have h2 : wrapInt (p * 4) = p * 4 := wrapInt_of_range (by omega) (by omega)
  rw [h1, h2]
  unfold toSizeT
  omega

/-- C3, as amended: `copyContentsToMemory(data)` leaves the destination and the whole
state untouched when copying is not enabled, `data` is null, or the width or the
height is below 1; with copying enabled and the front sub-camera inactive it zeroes
exactly the first `width * height * 4` bytes of `data` and does nothing else,
provided `width * height * 4` fits in an `int` (it is at most 2147483647); only in
the remaining case does it copy output texture 1 of the result frame buffer. -/
theorem copyContentsToMemory_cases (copyContents : Memory → Memory) (data : Option Memory)
    (w : World) :
    ((w.cam.mIsCopyingEnabled = false ∨ data = none ∨ w.cam.mWidth < 1 ∨ w.cam.mHeight < 1) →
      copyContentsToMemory copyContents data w = (data, w))
    ∧ (∀ m, data = some m → w.cam.mIsCopyingEnabled = true → 1 ≤ w.cam.mWidth →
        1 ≤ w.cam.mHeight → isActive w.cam CAMERA_ORIENTATION_FRONT = false →
        w.cam.mWidth * w.cam.mHeight * 4 ≤ 2147483647 →
        ∃ m2 : Memory, copyContentsToMemory copyContents data w = (some m2, w)
          ∧ (∀ i : Nat, (i : Int) < w.cam.mWidth * w.cam.mHeight * 4 → m2 i = 0)
          ∧ (∀ i : Nat, w.cam.mWidth * w.cam.mHeight * 4 ≤ (i : Int) → m2 i = m i))
    ∧ (∀ m, data = some m → w.cam.mIsCopyingEnabled = true → 1 ≤ w.cam.mWidth →
        1 ≤ w.cam.mHeight → isActive w.cam CAMERA_ORIENTATION_FRONT = true →
        copyContentsToMemory copyContents data w
          = (some (copyContents m),
             { w with wren := { w.wren with trace := w.wren.trace ++ [Event.frameBufferCopyContents] } })) := by
  refine ⟨?_, ?_, ?_⟩
  · intro h
    unfold copyContentsToMemory
    cases data with
    | none => rfl
    | some m =>
      have : (!w.cam.mIsCopyingEnabled) = true ∨ w.cam.mWidth < 1 ∨ w.cam.mHeight < 1 := by
        rcases h with h | h | h | h
        · exact Or.inl (by simp [h])
        · cases h
        · exact Or.inr (Or.inl h)
        · exact Or.inr (Or.inr h)
      simp only [if_pos this]
  · intro m hd he hw hh ha hfit
    subst hd
    have hguard : ¬ ((!w.cam.mIsCopyingEnabled) = true ∨ w.cam.mWidth < 1 ∨ w.cam.mHeight < 1) := by
      simp [he]; omega
    refine ⟨memsetZero m (w.cam.mWidth * w.cam.mHeight * 4).toNat, ?_, ?_, ?_⟩
    · unfold copyContentsToMemory
      simp only [if_neg hguard]
      simp [ha, memsetLength_of_fits hw hh hfit]
    · intro i hi
      have : i < (w.cam.mWidth * w.cam.mHeight * 4).toNat := by omega
      simp [memsetZero, this]
    · intro i hi
      have : ¬ i < (w.cam.mWidth * w.cam.mHeight * 4).toNat := by omega
      simp [memsetZero, this]
  · intro m hd he hw hh ha
    subst hd
    have hguard : ¬ ((!w.cam.mIsCopyingEnabled) = true ∨ w.cam.mWidth < 1 ∨ w.cam.mHeight < 1) := by
      simp [he]; omega
    unfold copyContentsToMemory
    simp only [if_neg hguard]
    simp [ha, Wren.emit]

/-- On the sample range finder nothing is copied while copying is disabled; in the
64x48 state with copying enabled and the front sub-camera inactive the first
`64 * 48 * 4 = 12288` bytes are zeroed and the byte after them is kept. -/
theorem copyContentsToMemory_cases_witness :
    copyContentsToMemory (fun _ _ => 7) (some (fun _ => 1)) rangeFinderWorld
        = (some (fun _ => 1), rangeFinderWorld)
    ∧ ∃ m2 : Memory,
        copyContentsToMemory (fun _ _ => 7) (some (fun _ => 1)) (inactiveFrontWorld 64 48)
          = (some m2, inactiveFrontWorld 64 48)
        ∧ m2 0 = 0 ∧ m2 12287 = 0 ∧ m2 12288 = 1 := by
  refine ⟨(copyContentsToMemory_cases (fun _ _ => 7) (some (fun _ => 1)) rangeFinderWorld).1
    (Or.inl (by decide)), ?_⟩
  obtain ⟨m2, h, hzero, hkeep⟩ :=
    (copyContentsToMemory_cases (fun _ _ => 7) (some (fun _ => 1)) (inactiveFrontWorld 64 48)).2.1
      (fun _ => 1) rfl (by decide) (by decide) (by decide) (by decide) (by decide)
  exact ⟨m2, h, hzero 0 (by decide), hzero 12287 (by decide), hkeep 12288 (by decide)⟩

/-- C3, the claim as stated fails where `width * height * 4` overflows `int`: in the
32768x32768 state with copying enabled and the front sub-camera inactive the claim
has the first `32768 * 32768 * 4 = 4294967296` bytes zeroed, but the `int` product
`mWidth * mHeight * 4` is 0 there and `memset` leaves the byte at offset 0 as it
is. -/
theorem copyContentsToMemory_overflow :
    (inactiveFrontWorld 32768 32768).cam.mIsCopyingEnabled = true
    ∧ isActive (inactiveFrontWorld 32768 32768).cam CAMERA_ORIENTATION_FRONT = false
    ∧ (inactiveFrontWorld 32768 32768).cam.mWidth * (inactiveFrontWorld 32768 32768).cam.mHeight * 4
        = 4294967296
    ∧ intMul (intMul (inactiveFrontWorld 32768 32768).cam.mWidth
        (inactiveFrontWorld 32768 32768).cam.mHeight) 4 = 0
    ∧ ∃ m2 : Memory,
        copyContentsToMemory (fun _ _ => 7) (some (fun _ => 1)) (inactiveFrontWorld 32768 32768)
          = (some m2, inactiveFrontWorld 32768 32768)
        ∧ m2 0 = 1 := by
  refine ⟨by decide, by decide, by decide, by decide, memsetZero (fun _ => 1) 0, ?_, rfl⟩
  have hlen : toSizeT (intMul (intMul (inactiveFrontWorld 32768 32768).cam.mWidth
      (inactiveFrontWorld 32768 32768).cam.mHeight) 4) = 0 := by decide
  have he : (inactiveFrontWorld 32768 32768).cam.mIsCopyingEnabled = true := by decide
  have ha : isActive (inactiveFrontWorld 32768 32768).cam CAMERA_ORIENTATION_FRONT = false := by
    decide
  have hguard : ¬ ((!(inactiveFrontWorld 32768 32768).cam.mIsCopyingEnabled) = true
      ∨ (inactiveFrontWorld 32768 32768).cam.mWidth < 1
      ∨ (inactiveFrontWorld 32768 32768).cam.mHeight < 1) := by decide
  unfold copyContentsToMemory
  simp only [if_neg hguard]
  simp [ha, hlen]

/-- C4: `copyPixelColourValue` enables copying only temporarily: whatever the state
and the pixel, `mIsCopyingEnabled` and every other member of the camera are after
the call what they were before it. -/
theorem copyPixelColourValue_cam (readPixel : Int → Int → PixelData) (x y : Int) (w : World) :
    (copyPixelColourValue readPixel x y w).2.cam = w.cam := by
  unfold copyPixelColourValue
  split
  · rfl
  · simp only [enableCopying_cam]
/-! ## What `cleanup` and `init` leave alone -/

theorem forActiveCameras_proj {β : Type} (f : World → β) (body : Nat → World → World)
    (h : ∀ i w, f (body i w) = f w) (w : World) : f (forActiveCameras body w) = f w := by
  unfold forActiveCameras
  generalize List.range CAMERA_ORIENTATION_COUNT = l
  induction l generalizing w with
  | nil => rfl
  | cons i l ih =>
    simp only [List.foldl_cons]
    rw [ih]
    split
    · exact h i w
    · rfl

theorem deleteResult_settings (w : World) :
    (deleteResult w).cam.settings = w.cam.settings := rfl

theorem deleteEffects_settings (w : World) :
    (deleteEffects w).cam.settings = w.cam.settings := rfl

theorem deleteSubCamera_cam (i : Nat) (w : World) : (deleteSubCamera i w).cam = w.cam := rfl

theorem cleanup_settings (w : World) : (cleanup w).cam.settings = w.cam.settings := by
  unfold cleanup
  dsimp only
  split
  · rfl
  · rw [deleteResult_settings,
      forActiveCameras_proj (fun w => w.cam.settings) deleteSubCamera (fun _ _ => rfl),
      deleteEffects_settings]

theorem setupCamera_settings (i : Nat) (w : World) :
    (setupCamera i w).cam.settings = w.cam.settings := by
  unfold setupCamera
  simp only
  split <;> rfl

theorem appendEffectIf_settings (b : Bool) (k : EffectKind) (w : World) :
    (appendEffectIf b k w).cam.settings = w.cam.settings := by
  cases b <;> rfl

theorem setupPostProcessingEffects_settings (w : World) :
    (setupPostProcessingEffects w).cam.settings = w.cam.settings := by
  unfold setupPostProcessingEffects
  split
  · rfl
  · show (appendEffects w).cam.settings = _
    unfold appendEffects
    simp only [appendEffectIf_settings]

theorem activateSubCameras_settings (c : Camera) :
    (activateSubCameras c).settings = c.settings := by
  unfold activateSubCameras
  simp only
  repeat' split
  all_goals rfl

theorem setSubCamerasResolution_settings {libm : Libm} {lateral vertical : Int} {c c1 : Camera}
    (h : setSubCamerasResolution libm lateral vertical c = Result.ok c1) :
    c1.settings = c.settings := by
  unfold setSubCamerasResolution at h
  dsimp only at h
  generalize (idealResolutions libm (setCorrectionCoefficient vertical c)).bind
    (scaleResolutions lateral vertical) = r at h
  cases r with
  | none => cases h
  | some r =>
    cases h
    unfold setCorrectionCoefficient
    split <;> rfl

theorem setupSphericalSubCameras_settings {libm : Libm} {c c1 : Camera}
    (h : setupSphericalSubCameras libm c = Result.ok c1) : c1.settings = c.settings := by
  unfold setupSphericalSubCameras at h
  rw [setSubCamerasResolution_settings h, activateSubCameras_settings]
  rfl

theorem forActiveCameras_cam (body : Nat → World → World)
    (h : ∀ i w, (body i w).cam = w.cam) (w : World) : (forActiveCameras body w).cam = w.cam :=
  forActiveCameras_proj (fun w => w.cam) body h w

theorem setFovy_cam (v : F32) (w : World) : (setFovy v w).cam = w.cam := by
  unfold setFovy
  apply forActiveCameras_cam
  intro i w
  rfl

theorem setAspectRatio_cam (v : F32) (w : World) : (setAspectRatio v w).cam = w.cam := by
  unfold setAspectRatio
  apply forActiveCameras_cam
  intro i w
  rfl

theorem applySphericalFieldOfView_cam (libm : Libm) (aspectRatio : F64) (fov : F32) (w : World) :
    (applySphericalFieldOfView libm aspectRatio fov w).cam = w.cam := by
  unfold applySphericalFieldOfView
  simp only [setAspectRatio_cam, setFovy_cam]

theorem setMaxRange_settings (w : World) :
    (setMaxRange w.cam.mMaxRange w).cam.settings = w.cam.settings := by
  unfold setMaxRange setBackgroundColor
  simp only
  repeat' split
  all_goals rfl

theorem initSubCameras_settings {libm : Libm} {w w1 : World}
    (h : initSubCameras libm w = Result.ok w1) : w1.cam.settings = w.cam.settings := by
  unfold initSubCameras at h
  split at h
  · obtain ⟨c, hc, rfl⟩ := Result.map_eq_ok h
    have h1 : ∀ v : World, (setupSphericalPostProcessingEffect v).cam.settings = v.cam.settings := by
      intro v; unfold setupSphericalPostProcessingEffect; split <;> rfl
    rw [h1, forActiveCameras_proj (fun w => w.cam.settings) _ setupCamera_settings]
    exact setupSphericalSubCameras_settings hc
  · cases h
    exact setupCamera_settings _ w

theorem initEffects_settings (w : World) :
    (initEffects w).cam.settings = w.cam.settings := by
  unfold initEffects
  split
  · exact setupPostProcessingEffects_settings w
  · rfl

theorem initParameters_settings (w : World) :
    (initParameters w).cam.settings = w.cam.settings := by
  unfold initParameters
  exact setMaxRange_settings _

theorem initBegin_settings {libm : Libm} {w w1 : World} (h : initBegin libm w = Result.ok w1) :
    w1.cam.settings = w.cam.settings := by
  unfold initBegin at h
  split at h
  · cases h
  · obtain ⟨v, hv, rfl⟩ := Result.map_eq_ok h
    rw [initParameters_settings, initEffects_settings, initSubCameras_settings hv]
    rfl

theorem initEnd_settings (w : World) : (initEnd w).cam.settings = w.cam.settings := by
  unfold initEnd setBackgroundColor
  simp only
  split <;> rfl

theorem init_succ (libm : Libm) (fuel : Nat) (w : World) :
    init libm (fuel + 1) w =
      match initBegin libm w with
      | Result.fault f => Result.fault f
      | Result.ok w => (setFieldOfViewWith libm (init libm fuel) w.cam.mFieldOfView w).map initEnd :=
  rfl

theorem init_ok {libm : Libm} {fuel : Nat} {w w1 : World} (h : init libm (fuel + 1) w = Result.ok w1) :
    ∃ v u, initBegin libm w = Result.ok v
      ∧ setFieldOfViewWith libm (init libm fuel) v.cam.mFieldOfView v = Result.ok u
      ∧ w1 = initEnd u := by
  rw [init_succ] at h
  split at h
  · cases h
  · rename_i v hv
    obtain ⟨u, hu, rfl⟩ := Result.map_eq_ok h
    exact ⟨v, u, hv, hu, rfl⟩

theorem setFieldOfViewWith_ok {libm : Libm} {initRec : World → Result World} {fov : F32}
    {w w1 : World} (h : setFieldOfViewWith libm initRec fov w = Result.ok w1) :
    (w.cam.mIsSpherical = true ∧ F32.ne fov w.cam.mFieldOfView = true
      ∧ ∃ u, initRec (cleanup { w with cam := { w.cam with mFieldOfView := fov } }) = Result.ok u
          ∧ w1.cam = u.cam)
    ∨ (w.cam.mIsSpherical = true ∧ F32.ne fov w.cam.mFieldOfView = false ∧ w1.cam = w.cam)
    ∨ (w.cam.mIsSpherical = false ∧ w1.cam = { w.cam with mFieldOfView := fov }) := by
  unfold setFieldOfViewWith at h
  dsimp only at h
  split at h
  · rename_i hs
    obtain ⟨u, hu, rfl⟩ := Result.map_eq_ok h
    split at hu
    · rename_i hne
      exact Or.inl ⟨hs, hne, u, hu, applySphericalFieldOfView_cam _ _ _ _⟩
    · rename_i hne
      cases hu
      exact Or.inr (Or.inl ⟨hs, by simpa using hne, applySphericalFieldOfView_cam _ _ _ _⟩)
  · rename_i hs
    have hw1 := Result.ok.inj h
    refine Or.inr (Or.inr ⟨by simpa using hs, ?_⟩)
    rw [← hw1, setAspectRatio_cam, setFovy_cam]

theorem init_settings (libm : Libm) (fuel : Nat) : ∀ (w w1 : World),
    init libm fuel w = Result.ok w1 → w1.cam.settings = w.cam.settings := by
  induction fuel with
  | zero => intro w w1 h; simp [init] at h
  | succ n ih =>
    intro w w1 h
    obtain ⟨v, u, hv, hu, rfl⟩ := init_ok h
    rw [initEnd_settings, ← initBegin_settings hv]
    rcases setFieldOfViewWith_ok hu with ⟨_, _, u2, hu2, hcam⟩ | ⟨_, _, hcam⟩ | ⟨_, hcam⟩
    · rw [hcam, ih _ _ hu2, cleanup_settings]
    · rw [hcam]
    · rw [hcam]

theorem bumpCounter_cleanup_fields (up : Bool) (w : World) :
    let c := (bumpCounter up (cleanup w)).cam
    c.mWidth = w.cam.mWidth ∧ c.mHeight = w.cam.mHeight ∧ c.mType = w.cam.mType
      ∧ c.mIsSpherical = w.cam.mIsSpherical ∧ c.mMotionBlurIntensity = w.cam.mMotionBlurIntensity
      ∧ c.mFocusDistance = w.cam.mFocusDistance ∧ c.mFocusLength = w.cam.mFocusLength
      ∧ c.mColorNoiseIntensity = w.cam.mColorNoiseIntensity
      ∧ c.mRangeNoiseIntensity = w.cam.mRangeNoiseIntensity
      ∧ c.mDepthResolution = w.cam.mDepthResolution
      ∧ c.mIsLensDistortionEnabled = w.cam.mIsLensDistortionEnabled := by
  have h := cleanup_settings w
  simp only [Camera.settings, Prod.mk.injEq] at h
  simp only [bumpCounter]
  tauto

/-! ## Termination of `init` -/

theorem F32.eq_self_of_not_nan {a : F32} (h : a.isNaN = false) : F32.eq a a = true := by
  simp [F32.eq, h]

theorem diverges_of_settings {a b : Camera} (h : a.settings = b.settings) :
    diverges a = diverges b := by
  simp only [Camera.settings, Prod.mk.injEq] at h
  unfold diverges
  rw [h.2.2.2.2.1, h.2.2.2.2.2.2.1]

theorem intDiv_of_pos (a : Int) {b : Int} (h : 1 ≤ b) : intDiv a b = some (Int.tdiv a b) := by
  unfold intDiv
  rw [if_neg]
  omega

theorem lateralCameraNumber_pos (c : Camera) : 1 ≤ lateralCameraNumber c := by
  unfold lateralCameraNumber
  split <;> split <;> omega

theorem verticalCameraNumber_pos (c : Camera) : 1 ≤ verticalCameraNumber c := by
  unfold verticalCameraNumber
  split <;> split <;> omega

theorem scaleResolutions_some {lateral vertical : Int} (hl : 1 ≤ lateral) (hv : 1 ≤ vertical)
    (r : Int × Int) : ∃ r1, scaleResolutions lateral vertical r = some r1 := by
  unfold scaleResolutions
  split
  · rw [intDiv_of_pos _ hv]
    exact ⟨_, rfl⟩
  · split
    · rw [intDiv_of_pos _ hl]
      exact ⟨_, rfl⟩
    · exact ⟨_, rfl⟩

theorem idealResolutions_some (libm : Libm) (c : Camera)
    (h : c.mHeight ≤ c.mWidth ∨ 1 ≤ c.mHeight) : ∃ r, idealResolutions libm c = some r := by
  unfold idealResolutions
  dsimp only
  split
  · rename_i hgt
    have hh : 1 ≤ c.mHeight := by
      rcases h with h | h
      · omega
      · exact h
    rw [intDiv_of_pos _ hh]
    exact ⟨_, rfl⟩
  · exact ⟨_, rfl⟩

theorem setSubCamerasResolution_returns (libm : Libm) {lateral vertical : Int} (c : Camera)
    (hl : 1 ≤ lateral) (hv : 1 ≤ vertical) (h : c.mHeight ≤ c.mWidth ∨ 1 ≤ c.mHeight) :
    ∃ c1, setSubCamerasResolution libm lateral vertical c = Result.ok c1 := by
  unfold setSubCamerasResolution
  dsimp only
  have hc : (setCorrectionCoefficient vertical c).mHeight = c.mHeight
      ∧ (setCorrectionCoefficient vertical c).mWidth = c.mWidth := by
    unfold setCorrectionCoefficient
    split <;> exact ⟨rfl, rfl⟩
  obtain ⟨r, hr⟩ := idealResolutions_some libm (setCorrectionCoefficient vertical c)
    (by rw [hc.1, hc.2]; exact h)
  obtain ⟨r1, hr1⟩ := scaleResolutions_some hl hv r
  rw [hr]
  show ∃ c1, storeResolutions _ (scaleResolutions lateral vertical r) = Result.ok c1
  rw [hr1]
  exact ⟨_, rfl⟩

theorem setupSphericalSubCameras_returns (libm : Libm) (c : Camera)
    (h : c.mHeight ≤ c.mWidth ∨ 1 ≤ c.mHeight) :
    ∃ c1, setupSphericalSubCameras libm c = Result.ok c1 := by
  unfold setupSphericalSubCameras
  apply setSubCamerasResolution_returns libm _ (lateralCameraNumber_pos _)
    (verticalCameraNumber_pos _)
  have hs := activateSubCameras_settings (setSphericalFieldsOfView c)
  simp only [Camera.settings, Prod.mk.injEq] at hs
  rw [hs.1, hs.2.1]
  exact h

theorem initBegin_returns (libm : Libm) (w : World)
    (hcount : 0 ≤ w.cam.mNumActivePostProcessingEffects)
    (hsize : w.cam.mIsSpherical = true → w.cam.mHeight ≤ w.cam.mWidth ∨ 1 ≤ w.cam.mHeight) :
    ∃ v, initBegin libm w = Result.ok v := by
  unfold initBegin
  rw [if_neg (by omega)]
  unfold initSubCameras
  split
  · rename_i hs
    obtain ⟨c1, hc1⟩ := setupSphericalSubCameras_returns libm (initResult w).cam (hsize hs)
    rw [hc1]
    exact ⟨_, rfl⟩
  · exact ⟨_, rfl⟩

theorem init_returns (libm : Libm) (fuel : Nat) (w : World)
    (hcount : 0 ≤ w.cam.mNumActivePostProcessingEffects) (h : diverges w.cam = false)
    (hsize : w.cam.mIsSpherical = true → w.cam.mHeight ≤ w.cam.mWidth ∨ 1 ≤ w.cam.mHeight) :
    ∃ w1, init libm (fuel + 1) w = Result.ok w1 := by
  obtain ⟨v, hv⟩ := initBegin_returns libm w hcount hsize
  have hd : diverges v.cam = false := (diverges_of_settings (initBegin_settings hv)).trans h
  rw [init_succ, hv]
  dsimp only
  unfold setFieldOfViewWith
  dsimp only
  split
  · rename_i hs
    have hnan : v.cam.mFieldOfView.isNaN = false := by
      simpa [diverges, hs] using hd
    rw [if_neg (by simp [F32.ne, F32.eq_self_of_not_nan hnan])]
    exact ⟨_, rfl⟩
  · exact ⟨_, rfl⟩

theorem init_assertion (libm : Libm) (fuel : Nat) (w : World)
    (h : w.cam.mNumActivePostProcessingEffects < 0) :
    init libm (fuel + 1) w
      = Result.fault (Fault.assertion w.cam.mNumActivePostProcessingEffects) := by
  rw [init_succ]
  unfold initBegin
  rw [if_pos h]

theorem init_diverges (libm : Libm) (fuel : Nat) : ∀ w : World, diverges w.cam = true →
    ∀ w1, init libm fuel w ≠ Result.ok w1 := by
  induction fuel with
  | zero => intro w _ w1 h; simp [init] at h
  | succ n ih =>
    intro w h w1 hw1
    obtain ⟨v, u, hv, hu, _⟩ := init_ok hw1
    have hd : diverges v.cam = true := (diverges_of_settings (initBegin_settings hv)).trans h
    have hs : v.cam.mIsSpherical = true := by
      simp [diverges] at hd; exact hd.1
    have hnan : v.cam.mFieldOfView.isNaN = true := by
      simp [diverges] at hd; exact hd.2
    rcases setFieldOfViewWith_ok hu with ⟨_, _, u2, hu2, _⟩ | ⟨_, hne, _⟩ | ⟨hns, _⟩
    · refine ih _ ?_ u2 hu2
      rw [diverges_of_settings (cleanup_settings _)]
      exact hd
    · simp [F32.ne, F32.eq_of_nan_left hnan] at hne
    · rw [hs] at hns
      cases hns

theorem init_cleanup_returns (libm : Libm) (fuel : Nat) (w : World)
    (hcount : 0 ≤ w.cam.mNumActivePostProcessingEffects) (h : diverges w.cam = false)
    (hsize : w.cam.mIsSpherical = true → w.cam.mHeight ≤ w.cam.mWidth ∨ 1 ≤ w.cam.mHeight) :
    ∃ w1, init libm (fuel + 1) (cleanup w) = Result.ok w1 := by
  have hs := cleanup_settings w
  have hd := (diverges_of_settings hs).trans h
  simp only [Camera.settings, Prod.mk.injEq] at hs
  apply init_returns libm fuel _ _ hd
  · rw [hs.2.2.2.2.1, hs.1, hs.2.1]
    exact hsize
  · rw [hs.2.2.2.2.2.1]
    exact hcount

theorem init_bump_cleanup_returns (libm : Libm) (fuel : Nat) (up : Bool) (w : World)
    (hcount : 1 ≤ w.cam.mNumActivePostProcessingEffects) (h : diverges w.cam = false)
    (hsize : w.cam.mIsSpherical = true → w.cam.mHeight ≤ w.cam.mWidth ∨ 1 ≤ w.cam.mHeight) :
    ∃ w1, init libm (fuel + 1) (bumpCounter up (cleanup w)) = Result.ok w1 := by
  have hs := cleanup_settings w
  have hd : diverges (bumpCounter up (cleanup w)).cam = false :=
    (diverges_of_settings hs).trans h
  simp only [Camera.settings, Prod.mk.injEq] at hs
  apply init_returns libm fuel _ _ hd
  · show (cleanup w).cam.mIsSpherical = true → _
    rw [hs.2.2.2.2.1]
    show _ → (cleanup w).cam.mHeight ≤ (cleanup w).cam.mWidth ∨ 1 ≤ (cleanup w).cam.mHeight
    rw [hs.1, hs.2.1]
    exact hsize
  · show 0 ≤ (if up then (cleanup w).cam.mNumActivePostProcessingEffects + 1
      else (cleanup w).cam.mNumActivePostProcessingEffects - 1)
    rw [hs.2.2.2.2.2.1]
    split <;> omega

theorem setter_returns (libm : Libm) (fuel : Nat) (s : Setter) (w : World)
    (hcount : 1 ≤ w.cam.mNumActivePostProcessingEffects) (h : diverges w.cam = false)
    (hsize : w.cam.mIsSpherical = true →
      1 ≤ w.cam.mHeight ∧ ∀ width height, s = Setter.setSize width height → 1 ≤ height) :
    ∃ w1, s.call libm (fuel + 1) w = Result.ok w1 := by
  have hsize1 : w.cam.mIsSpherical = true → w.cam.mHeight ≤ w.cam.mWidth ∨ 1 ≤ w.cam.mHeight :=
    fun hs => Or.inr (hsize hs).1
  have hcount0 : 0 ≤ w.cam.mNumActivePostProcessingEffects := by omega
  cases s with
  | setSize width height =>
    simp only [Setter.call, setSize]
    split
    · exact ⟨_, rfl⟩
    · exact init_cleanup_returns libm fuel _ hcount0 h
        (fun hs => Or.inr ((hsize hs).2 width height rfl))
  | setMotionBlur blur =>
    simp only [Setter.call, setMotionBlur]
    split
    · exact ⟨_, rfl⟩
    · split
      · exact init_bump_cleanup_returns libm fuel _ _ hcount h hsize1
      · exact ⟨_, rfl⟩
  | setFocus distance length =>
    simp only [Setter.call, setFocus]
    split
    · exact ⟨_, rfl⟩
    · split
      · exact init_bump_cleanup_returns libm fuel _ _ hcount h hsize1
      · exact ⟨_, rfl⟩
  | setColorNoise colorNoise =>
    simp only [Setter.call, setColorNoise]
    split
    · exact ⟨_, rfl⟩
    · split
      · exact init_bump_cleanup_returns libm fuel _ _ hcount h hsize1
      · exact ⟨_, rfl⟩
  | setRangeNoise rangeNoise =>
    simp only [Setter.call, setRangeNoise]
    split
    · exact ⟨_, rfl⟩
    · split
      · exact init_bump_cleanup_returns libm fuel _ _ hcount h hsize1
      · exact ⟨_, rfl⟩
  | setRangeResolution resolution =>
    simp only [Setter.call, setRangeResolution]
    split
    · exact ⟨_, rfl⟩
    · split
      · exact init_bump_cleanup_returns libm fuel _ _ hcount h hsize1
      · exact ⟨_, rfl⟩
  | enableLensDistortion =>
    simp only [Setter.call, enableLensDistortion]
    split
    · exact init_bump_cleanup_returns libm fuel _ _ hcount h hsize1
    · exact ⟨_, rfl⟩
  | disableLensDistortion =>
    simp only [Setter.call, disableLensDistortion]
    split
    · exact init_bump_cleanup_returns libm fuel _ _ hcount h hsize1
    · exact ⟨_, rfl⟩

/-! ## Setters react only to changes -/

theorem sameProperties_of_settings {a b : Camera} (h : a.settings = b.settings) :
    sameProperties a b := by
  simp only [Camera.settings, Prod.mk.injEq] at h
  unfold sameProperties
  tauto

theorem init_cleanup_properties {libm : Libm} {fuel : Nat} {w w1 : World} (h : init libm fuel (cleanup w) = Result.ok w1) :
    sameProperties w1.cam w.cam :=
  sameProperties_of_settings ((init_settings libm fuel _ _ h).trans (cleanup_settings w))

theorem init_bump_cleanup_properties {libm : Libm} {fuel : Nat} {up : Bool} {w w1 : World}
    (h : init libm fuel (bumpCounter up (cleanup w)) = Result.ok w1) : sameProperties w1.cam w.cam := by
  have h1 := sameProperties_of_settings (init_settings libm fuel _ _ h)
  have h2 := bumpCounter_cleanup_fields up w
  unfold sameProperties at *
  simp only at h2
  refine ⟨?_, ?_, ?_, ?_, ?_, ?_, ?_, ?_, ?_, ?_, ?_⟩
  · exact h1.1.trans h2.1
  · exact h1.2.1.trans h2.2.1
  · exact h1.2.2.1.trans h2.2.2.1
  · exact h1.2.2.2.1.trans h2.2.2.2.1
  · exact h1.2.2.2.2.1.trans h2.2.2.2.2.1
  · exact h1.2.2.2.2.2.1.trans h2.2.2.2.2.2.1
  · exact h1.2.2.2.2.2.2.1.trans h2.2.2.2.2.2.2.1
  · exact h1.2.2.2.2.2.2.2.1.trans h2.2.2.2.2.2.2.2.1
  · exact h1.2.2.2.2.2.2.2.2.1.trans h2.2.2.2.2.2.2.2.2.1
  · exact h1.2.2.2.2.2.2.2.2.2.1.trans h2.2.2.2.2.2.2.2.2.2.1
  · exact h1.2.2.2.2.2.2.2.2.2.2.trans h2.2.2.2.2.2.2.2.2.2.2

theorem setSize_twice {libm : Libm} {fuel fuel2 : Nat} {width height : Int} {w w1 : World}
    (h : setSize libm fuel width height w = Result.ok w1) : setSize libm fuel2 width height w1 = Result.ok w1 := by
  have hwh : width = w1.cam.mWidth ∧ height = w1.cam.mHeight := by
    unfold setSize at h
    split at h
    · cases h; assumption
    · have hp := init_cleanup_properties h
      exact ⟨hp.1.symm, hp.2.1.symm⟩
  unfold setSize
  rw [if_pos hwh]

theorem setMotionBlur_twice {libm : Libm} {fuel fuel2 : Nat} {blur : F32} {w w1 : World}
    (h : setMotionBlur libm fuel blur w = Result.ok w1) : setMotionBlur libm fuel2 blur w1 = Result.ok w1 := by
  have hv : F32.eq blur w1.cam.mMotionBlurIntensity = true ∨ w1.cam.mMotionBlurIntensity = blur := by
    unfold setMotionBlur at h
    split at h
    · cases h; left; assumption
    · right
      dsimp only at h
      split at h
      · exact (init_bump_cleanup_properties h).2.2.2.2.1
      · cases h; rfl
  unfold setMotionBlur
  split
  · rfl
  · rename_i hne
    have hb : w1.cam.mMotionBlurIntensity = blur := by
      rcases hv with hv | hv
      · exact absurd hv hne
      · exact hv
    rw [hb] at hne
    have hnan := F32.eq_false_of_eq_self_false (Bool.eq_false_iff.mpr hne)
    obtain ⟨c, g⟩ := w1
    cases c
    simp only at hb
    subst hb
    simp [hnan]

theorem setColorNoise_twice {libm : Libm} {fuel fuel2 : Nat} {colorNoise : F32} {w w1 : World}
    (h : setColorNoise libm fuel colorNoise w = Result.ok w1) :
    setColorNoise libm fuel2 colorNoise w1 = Result.ok w1 := by
  have hv : (w1.cam.mType != 'c' || F32.eq colorNoise w1.cam.mColorNoiseIntensity) = true
      ∨ w1.cam.mColorNoiseIntensity = colorNoise := by
    unfold setColorNoise at h
    split at h
    · cases h; left; assumption
    · right
      dsimp only at h
      split at h
      · exact (init_bump_cleanup_properties h).2.2.2.2.2.2.2.1
      · cases h; rfl
  unfold setColorNoise
  split
  · rfl
  · rename_i hne
    have hb : w1.cam.mColorNoiseIntensity = colorNoise := by
      rcases hv with hv | hv
      · exact absurd hv hne
      · exact hv
    rw [hb] at hne
    simp only [Bool.or_eq_true, not_or, Bool.not_eq_true] at hne
    have hnan := F32.eq_false_of_eq_self_false hne.2
    obtain ⟨c, g⟩ := w1
    cases c
    simp only at hb
    subst hb
    simp [hnan]

theorem setRangeNoise_twice {libm : Libm} {fuel fuel2 : Nat} {rangeNoise : F32} {w w1 : World}
    (h : setRangeNoise libm fuel rangeNoise w = Result.ok w1) :
    setRangeNoise libm fuel2 rangeNoise w1 = Result.ok w1 := by
  have hv : ((w1.cam.mType != 'r' && w1.cam.mType != 'l')
        || F32.eq rangeNoise w1.cam.mRangeNoiseIntensity) = true
      ∨ w1.cam.mRangeNoiseIntensity = rangeNoise := by
    unfold setRangeNoise at h
    split at h
    · cases h; left; assumption
    · right
      dsimp only at h
      split at h
      · exact (init_bump_cleanup_properties h).2.2.2.2.2.2.2.2.1
      · cases h; rfl
  unfold setRangeNoise
  split
  · rfl
  · rename_i hne
    have hb : w1.cam.mRangeNoiseIntensity = rangeNoise := by
      rcases hv with hv | hv
      · exact absurd hv hne
      · exact hv
    rw [hb] at hne
    simp only [Bool.or_eq_true, not_or, Bool.not_eq_true] at hne
    have hnan := F32.eq_false_of_eq_self_false hne.2
    obtain ⟨c, g⟩ := w1
    cases c
    simp only at hb
    subst hb
    simp [hnan]

theorem setRangeResolution_twice {libm : Libm} {fuel fuel2 : Nat} {resolution : F32} {w w1 : World}
    (h : setRangeResolution libm fuel resolution w = Result.ok w1) :
    setRangeResolution libm fuel2 resolution w1 = Result.ok w1 := by
  have hv : ((w1.cam.mType != 'r' && w1.cam.mType != 'l')
        || F32.eq resolution w1.cam.mDepthResolution) = true
      ∨ w1.cam.mDepthResolution = resolution := by
    unfold setRangeResolution at h
    split at h
    · cases h; left; assumption
    · right
      dsimp only at h
      split at h
      · exact (init_bump_cleanup_properties h).2.2.2.2.2.2.2.2.2.1
      · cases h; rfl
  unfold setRangeResolution
  split
  · rfl
  · rename_i hne
    have hb : w1.cam.mDepthResolution = resolution := by
      rcases hv with hv | hv
      · exact absurd hv hne
      · exact hv
    rw [hb] at hne
    simp only [Bool.or_eq_true, not_or, Bool.not_eq_true] at hne
    have hnan := F32.eq_false_of_eq_self_false hne.2
    obtain ⟨c, g⟩ := w1
    cases c
    simp only at hb
    subst hb
    simp [hnan]

theorem setFocus_twice {libm : Libm} {fuel fuel2 : Nat} {distance length : F32} {w w1 : World}
    (h : setFocus libm fuel distance length w = Result.ok w1) :
    setFocus libm fuel2 distance length w1 = Result.ok w1 := by
  have hv : (w1.cam.mIsSpherical
        || (F32.eq distance w1.cam.mFocusDistance && F32.eq length w1.cam.mFocusLength)) = true
      ∨ (w1.cam.mFocusDistance = distance ∧ w1.cam.mFocusLength = length) := by
    unfold setFocus at h
    split at h
    · cases h; left; assumption
    · right
      dsimp only at h
      split at h
      · have hp := init_bump_cleanup_properties h
        exact ⟨hp.2.2.2.2.2.1, hp.2.2.2.2.2.2.1⟩
      · cases h; exact ⟨rfl, rfl⟩
  unfold setFocus
  split
  · rfl
  · rename_i hne
    have hb : w1.cam.mFocusDistance = distance ∧ w1.cam.mFocusLength = length := by
      rcases hv with hv | hv
      · exact absurd hv hne
      · exact hv
    obtain ⟨hd, hl⟩ := hb
    have hstatus :
        (((F32.eq distance F32.zero || F32.eq length F32.zero)
            && (F32.gt distance F32.zero && F32.gt length F32.zero))
          || ((F32.gt distance F32.zero && F32.gt length F32.zero)
            && (F32.eq distance F32.zero || F32.eq length F32.zero))) = false := by
      cases h1 : F32.eq distance F32.zero <;> cases h2 : F32.eq length F32.zero
        <;> simp [F32.gt_zero_of_eq_zero, h1, h2]
    obtain ⟨c, g⟩ := w1
    cases c
    simp only at hd hl
    subst hd hl
    simp [hstatus]

theorem enableLensDistortion_twice {libm : Libm} {fuel fuel2 : Nat} {w w1 : World}
    (h : enableLensDistortion libm fuel w = Result.ok w1) : enableLensDistortion libm fuel2 w1 = Result.ok w1 := by
  have hv : w1.cam.mIsLensDistortionEnabled = true := by
    unfold enableLensDistortion at h
    split at h
    · exact (init_bump_cleanup_properties h).2.2.2.2.2.2.2.2.2.2
    · cases h
      rename_i hn
      simpa using hn
  unfold enableLensDistortion
  simp [hv]

theorem disableLensDistortion_twice {libm : Libm} {fuel fuel2 : Nat} {w w1 : World}
    (h : disableLensDistortion libm fuel w = Result.ok w1) : disableLensDistortion libm fuel2 w1 = Result.ok w1 := by
  have hv : w1.cam.mIsLensDistortionEnabled = false := by
    unfold disableLensDistortion at h
    split at h
    · exact (init_bump_cleanup_properties h).2.2.2.2.2.2.2.2.2.2
    · cases h
      rename_i hn
      simpa using hn
  unfold disableLensDistortion
  simp [hv]

theorem setter_call_twice {libm : Libm} {fuel : Nat} {s : Setter} {w w1 : World}
    (h : s.call libm fuel w = Result.ok w1) (fuel2 : Nat) : s.call libm fuel2 w1 = Result.ok w1 := by
  cases s with
  | setSize width height => exact setSize_twice h
  | setMotionBlur blur => exact setMotionBlur_twice h
  | setFocus distance length => exact setFocus_twice h
  | setColorNoise colorNoise => exact setColorNoise_twice h
  | setRangeNoise rangeNoise => exact setRangeNoise_twice h
  | setRangeResolution resolution => exact setRangeResolution_twice h
  | enableLensDistortion => exact enableLensDistortion_twice h
  | disableLensDistortion => exact disableLensDistortion_twice h

/-! ## The post-processing chain -/

theorem appendEffectIf_eq (b : Bool) (k : EffectKind) (w : World) :
    appendEffectIf b k w =
      { cam := { w.cam with
          mPostProcessingEffects := w.cam.mPostProcessingEffects ++ (if b then [k] else []) },
        wren := { live := w.wren.live ++ (if b then [GpuObject.effect k] else []),
                  trace := w.wren.trace ++ (if b then [Event.new (GpuObject.effect k)] else []) } } := by
  cases b
  · simp [appendEffectIf]
  · simp [appendEffectIf, Wren.create]

theorem filter_effectOrder (c : Camera) :
    effectOrder.filter (effectCondition c) =
      (if effectCondition c EffectKind.lensDistortion then [EffectKind.lensDistortion] else [])
      ++ (if effectCondition c EffectKind.depthOfField then [EffectKind.depthOfField] else [])
      ++ (if effectCondition c EffectKind.motionBlur then [EffectKind.motionBlur] else [])
      ++ (if effectCondition c EffectKind.hdrResolve then [EffectKind.hdrResolve] else [])
      ++ (if effectCondition c EffectKind.smaa then [EffectKind.smaa] else [])
      ++ (if effectCondition c EffectKind.colorNoise then [EffectKind.colorNoise] else [])
      ++ (if effectCondition c EffectKind.rangeNoise then [EffectKind.rangeNoise] else [])
      ++ (if effectCondition c EffectKind.depthResolution then [EffectKind.depthResolution] else [])
      ++ (if effectCondition c EffectKind.noiseMask then [EffectKind.noiseMask] else []) := by
  unfold effectOrder
  generalize effectCondition c = p
  have h : ∀ (k : EffectKind) (l : List EffectKind),
      (k :: l).filter p = (if p k then [k] else []) ++ l.filter p := by
    intro k l
    cases hk : p k <;> simp [List.filter, hk]
  simp only [h, List.filter_nil, List.append_nil, List.append_assoc]

theorem map_optional {α β : Type} (f : α → β) (b : Bool) (k : α) :
    (if b then [k] else []).map f = if b then [f k] else [] := by
  cases b <;> rfl

theorem appendEffects_eq (w : World) :
    appendEffects w =
      { cam := { w.cam with
          mPostProcessingEffects :=
            w.cam.mPostProcessingEffects ++ effectOrder.filter (effectCondition w.cam) },
        wren := { live := w.wren.live
                    ++ (effectOrder.filter (effectCondition w.cam)).map GpuObject.effect,
                  trace := w.wren.trace
                    ++ (effectOrder.filter (effectCondition w.cam)).map
                        (fun k => Event.new (GpuObject.effect k)) } } := by
  rw [filter_effectOrder]
  unfold appendEffects
  simp only [appendEffectIf_eq, effectCondition, List.map_append, map_optional, List.append_assoc]

theorem setInputFrameBuffers_succ (c : Camera) (i : Nat) (ks : List EffectKind) :
    setInputFrameBuffers c (i + 1) ks
      = ks.map (fun k => Event.effectSetInputFrameBuffer k c.mResultFrameBuffer) := by
  induction ks generalizing i with
  | nil => rfl
  | cons k ks ih => simp [setInputFrameBuffers, ih]

theorem setInputFrameBuffers_zero (c : Camera) (ks : List EffectKind) :
    setInputFrameBuffers c 0 ks = chainInputs c ks := by
  cases ks with
  | nil => rfl
  | cons k ks => simp [setInputFrameBuffers, chainInputs, setInputFrameBuffers_succ]

theorem effectOrder_complete (k : EffectKind) : k ∈ effectOrder := by
  cases k <;> simp [effectOrder]

/-- C8: when the counter of active effects is not zero and the chain starts empty
(as the constructor and `cleanup` leave it), the chain `setupPostProcessingEffects`
builds is the fixed order (lens distortion, depth of field, motion blur, HDR resolve,
SMAA, colour noise, range noise, depth resolution, noise mask) restricted to the
effects whose condition holds: it is a sub-sequence of that order and an effect is in
it exactly when its condition holds.  One object is created per effect, in chain
order, and then the first effect of the chain is given the frame buffer of the front
sub-camera as input and every later effect the result frame buffer. -/
theorem setupPostProcessingEffects_chain (w : World)
    (hcount : w.cam.mNumActivePostProcessingEffects ≠ 0)
    (hempty : w.cam.mPostProcessingEffects = []) :
    (setupPostProcessingEffects w).cam.mPostProcessingEffects
        = effectOrder.filter (effectCondition w.cam)
    ∧ List.Sublist (setupPostProcessingEffects w).cam.mPostProcessingEffects effectOrder
    ∧ (∀ k, k ∈ (setupPostProcessingEffects w).cam.mPostProcessingEffects
        ↔ effectCondition w.cam k = true)
    ∧ (setupPostProcessingEffects w).wren.trace
        = w.wren.trace
          ++ (setupPostProcessingEffects w).cam.mPostProcessingEffects.map
              (fun k => Event.new (GpuObject.effect k))
          ++ chainInputs w.cam (setupPostProcessingEffects w).cam.mPostProcessingEffects := by
  have hchain : (setupPostProcessingEffects w).cam.mPostProcessingEffects
      = effectOrder.filter (effectCondition w.cam) := by
    unfold setupPostProcessingEffects
    rw [if_neg hcount, appendEffects_eq]
    simp [hempty]
  refine ⟨hchain, ?_, ?_, ?_⟩
  · rw [hchain]
    exact List.filter_sublist _
  · intro k
    rw [hchain, List.mem_filter]
    exact ⟨fun h => h.2, fun h => ⟨effectOrder_complete k, h⟩⟩
  · rw [hchain]
    unfold setupPostProcessingEffects
    rw [if_neg hcount, appendEffects_eq]
    simp only [hempty, List.nil_append, setInputFrameBuffers_zero]
    rfl

/-- The chain of the sample colour camera, rebuilt after `cleanup`: HDR resolve, then
SMAA. -/
theorem setupPostProcessingEffects_chain_witness :
    (setupPostProcessingEffects (cleanup colourCameraWorld)).cam.mPostProcessingEffects
      = [EffectKind.hdrResolve, EffectKind.smaa] :=
  (setupPostProcessingEffects_chain (cleanup colourCameraWorld) (by decide) (by decide)).1.trans
    (by decide)

/-- C5: setters react only to property changes.  For each of `setSize`,
`setMotionBlur`, `setFocus`, `setColorNoise`, `setRangeNoise`, `setRangeResolution`,
`enableLensDistortion` and `disableLensDistortion`, for every state, argument and
mathematics library: when the call returns the state `w1`, the same call repeated on
`w1` returns `w1` again, with the same members, the same live GPU objects and the
same recorded calls, hence without running `cleanup` or `init`.  The first call does
return whenever the counter of active effects is at least 1 (so that the assertion
of `init` holds after a decrement), the camera is not a spherical one with a NaN
field of view (where `init` and `setFieldOfView` call each other without end), and,
for a spherical camera, the height before and after the call is at least 1 (source
line 681 divides by it). -/
theorem setter_twice (libm : Libm) (fuel : Nat) (s : Setter) (w : World) :
    (∀ w1, s.call libm fuel w = Result.ok w1 → ∀ fuel2, s.call libm fuel2 w1 = Result.ok w1)
    ∧ (1 ≤ w.cam.mNumActivePostProcessingEffects → diverges w.cam = false →
        (w.cam.mIsSpherical = true →
          1 ≤ w.cam.mHeight ∧ ∀ width height, s = Setter.setSize width height → 1 ≤ height) →
        ∃ w1, s.call libm (fuel + 1) w = Result.ok w1) :=
  ⟨fun _ h fuel2 => setter_call_twice h fuel2, setter_returns libm fuel s w⟩

set_option maxRecDepth 8192 in
/-- The motion blur set to `1.0f` twice on the sample colour camera: the first call
rebuilds the camera with two active effects, the second leaves it as it is. -/
theorem setter_twice_witness :
    ∃ w1, (Setter.setMotionBlur F32.one).call sampleLibm 1 colourCameraWorld = Result.ok w1
      ∧ (Setter.setMotionBlur F32.one).call sampleLibm 1 w1 = Result.ok w1
      ∧ w1.cam.mNumActivePostProcessingEffects = 2 := by
  obtain ⟨w1, hw1⟩ := (setter_twice sampleLibm 0 (Setter.setMotionBlur F32.one) colourCameraWorld).2
    (by decide) (by decide) (fun h => absurd h (by decide))
  refine ⟨w1, hw1, ?_, ?_⟩
  · exact (setter_twice sampleLibm 1 (Setter.setMotionBlur F32.one) colourCameraWorld).1 w1 hw1 1
  · have h : (Setter.setMotionBlur F32.one).call sampleLibm 1 colourCameraWorld
        = Result.ok (((Setter.setMotionBlur F32.one).call sampleLibm 1 colourCameraWorld).get
            (by decide)) := by decide
    rw [h] at hw1
    rw [← Result.ok.inj hw1]
    decide

/-! ## Where the code departs from its own bookkeeping -/

set_option maxRecDepth 8192 in
/-- C6: on a range finder as constructed, `setRangeResolution(0.0f)` (a value other
than -1) makes the counter count the depth-resolution effect (it goes from 0 to 1),
but the chain `init` rebuilds is empty: the effect is appended only for a resolution
greater than 0.  The viewport of the front sub-camera now renders into the
sub-camera frame buffer, which no effect reads. -/
theorem setRangeResolution_zero_counted_not_built :
    ∃ w1, setRangeResolution sampleLibm 1 F32.zero rangeFinderWorld = Result.ok w1
      ∧ F32.ne F32.zero F32.minusOne = true
      ∧ rangeFinderWorld.cam.mNumActivePostProcessingEffects = 0
      ∧ w1.cam.mNumActivePostProcessingEffects = 1
      ∧ w1.cam.mPostProcessingEffects = []
      ∧ GpuObject.effect EffectKind.depthResolution ∉ w1.wren.live
      ∧ Event.viewportSetFrameBuffer 0 (some (GpuObject.frameBuffer (FrameBufferRef.camera 0)))
          ∈ w1.wren.trace := by
  refine ⟨(setRangeResolution sampleLibm 1 F32.zero rangeFinderWorld).get (by decide),
    by decide, ?_, ?_, ?_, ?_, ?_, ?_⟩ <;> decide

set_option maxRecDepth 8192 in
/-- C9: on a range finder as constructed, `setMotionBlur(-1.0f)` decrements the
counter from 0 to -1 and then runs `init`, whose assertion
`mNumActivePostProcessingEffects >= 0` is therefore false: the call ends in the
failed assertion, the counter being -1. -/
theorem setMotionBlur_negative_breaks_assertion :
    rangeFinder = Result.ok rangeFinderWorld
    ∧ rangeFinderWorld.cam.mNumActivePostProcessingEffects = 0
    ∧ F32.eq rangeFinderWorld.cam.mMotionBlurIntensity F32.zero = true
    ∧ F32.gt F32.minusOne F32.zero = false
    ∧ setMotionBlur sampleLibm 1 F32.minusOne rangeFinderWorld
        = Result.fault (Fault.assertion (-1)) := by
  refine ⟨?_, ?_, ?_, ?_, ?_⟩ <;> decide

set_option maxRecDepth 8192 in
/-- C10: on a colour camera as constructed, `setNoiseMask` with an image that cannot be
read runs `cleanup` and returns the error without running `init`; the next
`setSize` runs `cleanup` again.  The second `cleanup` passes its guard
(`mCamera[FRONT]` is never reset) and deletes the sub-camera, the viewport and the
frame buffers the first one had already deleted. -/
theorem cleanup_twice_after_unreadable_noise_mask :
    ∃ w1 w2,
      setNoiseMask sampleLibm 1 (NoiseMaskSource.unreadable "file not found") "mask.png"
          colourCameraWorld
          = Result.ok ("Cannot load mask.png: file not found", w1)
      ∧ setSize sampleLibm 1 32 24 w1 = Result.ok w2
      ∧ w2.wren.trace.filter isLifecycle
          = [Event.initCall 1, Event.cleanupCall, Event.cleanupCall, Event.initCall 1]
      ∧ w1.wren.live = []
      ∧ Event.deleteDead (GpuObject.camera 0) ∈ w2.wren.trace
      ∧ Event.deleteDead (GpuObject.viewport 0) ∈ w2.wren.trace
      ∧ Event.deleteDead (GpuObject.frameBuffer (FrameBufferRef.camera 0)) ∈ w2.wren.trace
      ∧ Event.deleteDead (GpuObject.frameBuffer FrameBufferRef.result) ∈ w2.wren.trace := by
  refine ⟨((setNoiseMask sampleLibm 1 (NoiseMaskSource.unreadable "file not found") "mask.png"
      colourCameraWorld).get (by decide)).2,
    (setSize sampleLibm 1 32 24
      ((setNoiseMask sampleLibm 1 (NoiseMaskSource.unreadable "file not found") "mask.png"
        colourCameraWorld).get (by decide)).2).get (by decide),
    by decide, by decide, ?_, ?_, ?_, ?_, ?_, ?_⟩ <;> decide

/-! ## Calls that do not return -/

set_option maxRecDepth 8192 in
/-- On the sample spherical camera `setSize(-1, 0)` ends in the division by
`mHeight = 0` of source line 681 (the camera is then higher than wide). -/
theorem setSize_zero_height_faults :
    setSize sampleLibm 1 (-1) 0 sphericalCameraWorld = Result.fault Fault.integerDivision := by
  decide

set_option maxRecDepth 8192 in
/-- A spherical camera whose field of view is a NaN is never constructed: `init` and
`setFieldOfView` call each other until the bound on the depth of the calls is
reached, whatever the bound. -/
theorem WbWrenCamera_nan_never_returns (fuel : Nat) (w1 : World) :
    WbWrenCamera sampleLibm fuel 64 48 F32.one F32.zero F32.one F32.qNaN 'c' true true
      ≠ Result.ok w1 := by
  unfold WbWrenCamera
  exact init_diverges sampleLibm fuel _ (by decide) w1

/-! ## The thresholds as numbers -/

theorem F32.significand_lt (a : F32) : a.significand < 16777216 := by
  unfold F32.significand
  have := a.mantissa.isLt
  split <;> omega

theorem F32.gtConst_iff_toRat (a : F32) (hfin : a.exponent.val ≠ 255) (n k : Nat) :
    a.gtConst n k = true ↔ (n : ℚ) / 2 ^ k < a.toRat := by
  have hnan : a.isNaN = false := by simp [F32.isNaN, hfin]
  have hinf : a.isInf = false := by simp [F32.isInf, hfin]
  have hk : (0 : ℚ) < 2 ^ k := by positivity
  unfold F32.gtConst F32.toRat
  cases hs : a.sign
  · simp only [hnan, Bool.or_false, Bool.false_eq_true, if_false, hinf, one_mul]
    by_cases hsc : 0 ≤ a.scale
    · rw [if_pos hsc]
      obtain ⟨t, ht⟩ := Int.eq_ofNat_of_zero_le hsc
      rw [ht]
      simp only [Int.toNat_ofNat, zpow_natCast, decide_eq_true_eq]
      rw [div_lt_iff₀ hk]
      exact_mod_cast Iff.rfl
    · rw [if_neg hsc]
      obtain ⟨t, ht⟩ := Int.eq_ofNat_of_zero_le (show 0 ≤ -a.scale by omega)
      have hsc2 : a.scale = -(t : ℤ) := by omega
      rw [ht, hsc2]
      simp only [Int.toNat_ofNat, zpow_neg, zpow_natCast, decide_eq_true_eq]
      have ht0 : (0 : ℚ) < 2 ^ t := by positivity
      rw [div_lt_iff₀ hk, mul_assoc, mul_comm ((2 : ℚ) ^ t)⁻¹, ← mul_assoc, ← div_eq_mul_inv,
        lt_div_iff₀ ht0]
      exact_mod_cast Iff.rfl
  · simp only [hnan, Bool.or_true, if_true, Bool.false_eq_true, false_iff, not_lt]
    have h1 : (0 : ℚ) ≤ (a.significand : ℚ) * (2 : ℚ) ^ a.scale := by positivity
    have h2 : (0 : ℚ) ≤ (n : ℚ) / 2 ^ k := by positivity
    nlinarith

theorem F32.toRat_cast (a : F32) :
    ((a.toRat : ℚ) : ℝ)
      = (if a.sign then -1 else 1) * (a.significand : ℝ) * (2 : ℝ) ^ a.scale := by
  unfold F32.toRat
  cases a.sign <;> simp

theorem F32.toRat_above_iff (a : F32) (g N : ℤ) (r : ℝ)
    (h1 : ((N : ℝ) - 1) * (2 : ℝ) ^ g ≤ r) (h2 : r < (N : ℝ) * (2 : ℝ) ^ g)
    (h3 : (2 : ℝ) ^ (g + 23) ≤ r) :
    r < ((a.toRat : ℚ) : ℝ) ↔ (N : ℝ) * (2 : ℝ) ^ g ≤ ((a.toRat : ℚ) : ℝ) := by
  have hg : (0 : ℝ) < (2 : ℝ) ^ g := by positivity
  constructor
  · intro hr
    by_cases hsc : g ≤ a.scale
    · obtain ⟨t, ht⟩ := Int.eq_ofNat_of_zero_le (show 0 ≤ a.scale - g by omega)
      have hscale : a.scale = g + (t : ℤ) := by omega
      have hv : ((a.toRat : ℚ) : ℝ)
          = (((if a.sign then -1 else 1) * (a.significand : ℤ) * 2 ^ t : ℤ) : ℝ) * (2 : ℝ) ^ g := by
        rw [F32.toRat_cast, hscale, zpow_add₀ (by norm_num : (2 : ℝ) ≠ 0), zpow_natCast]
        cases a.sign <;> (push_cast; ring)
      generalize ((if a.sign then -1 else 1) * (a.significand : ℤ) * 2 ^ t : ℤ) = J at hv
      rw [hv] at hr ⊢
      have hlt : ((N : ℝ) - 1) * (2 : ℝ) ^ g < (J : ℝ) * (2 : ℝ) ^ g := lt_of_le_of_lt h1 hr
      have hlt2 : (N : ℝ) - 1 < (J : ℝ) := lt_of_mul_lt_mul_right hlt hg.le
      have hlt3 : N - 1 < J := by exact_mod_cast hlt2
      have hle : (N : ℝ) ≤ (J : ℝ) := by exact_mod_cast (show N ≤ J by omega)
      exact mul_le_mul_of_nonneg_right hle hg.le
    · exfalso
      have hs1 : a.scale ≤ g - 1 := by omega
      have hpow : (2 : ℝ) ^ a.scale ≤ (2 : ℝ) ^ (g - 1) := zpow_le_zpow_right₀ (by norm_num) hs1
      have hsig : (a.significand : ℝ) < 16777216 := by exact_mod_cast a.significand_lt
      have hsig0 : (0 : ℝ) ≤ (a.significand : ℝ) := by positivity
      have hp0 : (0 : ℝ) < (2 : ℝ) ^ a.scale := by positivity
      have hle : ((a.toRat : ℚ) : ℝ) ≤ (a.significand : ℝ) * (2 : ℝ) ^ a.scale := by
        rw [F32.toRat_cast]
        cases a.sign
        · simp
        · simp only [if_true]
          nlinarith [mul_nonneg hsig0 hp0.le]
      have h224 : (2 : ℝ) ^ (g + 23) = 16777216 * (2 : ℝ) ^ (g - 1) := by
        have : g + 23 = 24 + (g - 1) := by ring
        rw [this, zpow_add₀ (by norm_num : (2 : ℝ) ≠ 0)]
        norm_num
      have hlt : (a.significand : ℝ) * (2 : ℝ) ^ a.scale < (2 : ℝ) ^ (g + 23) := by
        rw [h224]
        have hq : (0 : ℝ) < (2 : ℝ) ^ (g - 1) := by positivity
        calc (a.significand : ℝ) * (2 : ℝ) ^ a.scale
            ≤ (a.significand : ℝ) * (2 : ℝ) ^ (g - 1) := mul_le_mul_of_nonneg_left hpow hsig0
          _ < 16777216 * (2 : ℝ) ^ (g - 1) := mul_lt_mul_of_pos_right hsig hq
      linarith
  · intro h
    linarith

theorem F32.gtConst_iff_exceeds (a : F32) (n k : Nat) (g N : ℤ) (r : ℝ)
    (hc1 : ((N : ℝ) - 1) * (2 : ℝ) ^ g ≤ (n : ℝ) / 2 ^ k)
    (hc2 : (n : ℝ) / 2 ^ k < (N : ℝ) * (2 : ℝ) ^ g)
    (hc3 : (2 : ℝ) ^ (g + 23) ≤ (n : ℝ) / 2 ^ k)
    (hr1 : ((N : ℝ) - 1) * (2 : ℝ) ^ g ≤ r) (hr2 : r < (N : ℝ) * (2 : ℝ) ^ g)
    (hr3 : (2 : ℝ) ^ (g + 23) ≤ r) :
    a.gtConst n k = true ↔ a.exceeds r := by
  by_cases hfin : a.exponent.val = 255
  · by_cases hm : a.mantissa.val = 0
    · have hnan : a.isNaN = false := by simp [F32.isNaN, hfin, hm]
      have hinf : a.isInf = true := by simp [F32.isInf, hfin, hm]
      cases hs : a.sign
      · have ha : a = F32.inf false := by
          obtain ⟨s, e, m⟩ := a
          simp only at hfin hm hs
          simp only [F32.inf, F32.mk.injEq]
          exact ⟨hs, Fin.ext hfin, Fin.ext hm⟩
        have hgt : a.gtConst n k = true := by simp [F32.gtConst, hnan, hinf, hs]
        exact ⟨fun _ => ⟨hnan, Or.inl ha⟩, fun _ => hgt⟩
      · have ha : a ≠ F32.inf false := by
          intro h
          rw [h] at hs
          simp [F32.inf] at hs
        have hgt : a.gtConst n k = false := by simp [F32.gtConst, hs]
        constructor
        · intro h
          rw [hgt] at h
          cases h
        · rintro ⟨_, h | ⟨h, _⟩⟩
          · exact absurd h ha
          · exact absurd hfin h
    · have hnan : a.isNaN = true := by simp [F32.isNaN, hfin, hm]
      have hgt : a.gtConst n k = false := by simp [F32.gtConst, hnan]
      constructor
      · intro h
        rw [hgt] at h
        cases h
      · rintro ⟨h, _⟩
        rw [hnan] at h
        cases h
  · have hnan : a.isNaN = false := by simp [F32.isNaN, hfin]
    have hne : a ≠ F32.inf false := by
      intro h
      apply hfin
      rw [h]
      rfl
    rw [F32.gtConst_iff_toRat a hfin]
    unfold F32.exceeds
    simp only [hnan, hne, hfin, ne_eq, not_false_eq_true, true_and, false_or]
    have hcast : (n : ℚ) / 2 ^ k < a.toRat ↔ (n : ℝ) / 2 ^ k < ((a.toRat : ℚ) : ℝ) := by
      rw [← Rat.cast_lt (K := ℝ)]
      push_cast
      rfl
    rw [hcast, F32.toRat_above_iff a g N _ hc1 hc2 hc3, F32.toRat_above_iff a g N r hr1 hr2 hr3]

theorem F32.gtConst_M_PI_2 (a : F32) :
    a.gtConst M_PI_2_num 52 = true ↔ a.exceeds (Real.pi / 2) := by
  have h1 := Real.pi_gt_d20
  have h2 := Real.pi_lt_d20
  apply F32.gtConst_iff_exceeds a M_PI_2_num 52 (-23) 13176795
  · norm_num [M_PI_2_num]
  · norm_num [M_PI_2_num]
  · norm_num [M_PI_2_num]
  · norm_num; linarith
  · norm_num; linarith
  · norm_num; linarith

theorem F32.gtConst_three_M_PI_2 (a : F32) :
    a.gtConst three_M_PI_2_num 50 = true ↔ a.exceeds (3 * Real.pi / 2) := by
  have h1 := Real.pi_gt_d20
  have h2 := Real.pi_lt_d20
  apply F32.gtConst_iff_exceeds a three_M_PI_2_num 50 (-21) 9882596
  · norm_num [three_M_PI_2_num]
  · norm_num [three_M_PI_2_num]
  · norm_num [three_M_PI_2_num]
  · norm_num; linarith
  · norm_num; linarith
  · norm_num; linarith

theorem F32.gtConst_phi (a : F32) :
    a.gtConst phi_num 52 = true ↔ a.exceeds 1.230959417 := by
  apply F32.gtConst_iff_exceeds a phi_num 52 (-23) 10326037
  · norm_num [phi_num]
  · norm_num [phi_num]
  · norm_num [phi_num]
  · norm_num
  · norm_num
  · norm_num

/-! ## The active sub-cameras -/

theorem F32.gtConst_mono {a : F32} {n1 k1 n2 k2 : Nat} (hle : n2 * 2 ^ k1 ≤ n1 * 2 ^ k2)
    (h : a.gtConst n1 k1 = true) : a.gtConst n2 k2 = true := by
  unfold F32.gtConst at *
  split at h
  · cases h
  · rename_i hns
    rw [if_neg hns]
    split at h
    · rename_i hinf
      rw [if_pos hinf]
    · rename_i hinf
      rw [if_neg hinf]
      split at h
      · rename_i hs
        rw [if_pos hs]
        simp only [decide_eq_true_eq] at h ⊢
        generalize a.significand * 2 ^ a.scale.toNat = x at h ⊢
        by_contra hc
        have hc2 : x * 2 ^ k2 ≤ n2 := Nat.le_of_not_lt hc
        have h1 : x * 2 ^ k2 * 2 ^ k1 ≤ n2 * 2 ^ k1 := Nat.mul_le_mul_right _ hc2
        have h2 : n1 * 2 ^ k2 < x * 2 ^ k1 * 2 ^ k2 :=
          Nat.mul_lt_mul_of_pos_right h (Nat.two_pow_pos _)
        have h3 : x * 2 ^ k2 * 2 ^ k1 = x * 2 ^ k1 * 2 ^ k2 := by ring
        omega
      · rename_i hs
        rw [if_neg hs]
        simp only [decide_eq_true_eq] at h ⊢
        generalize 2 ^ (-a.scale).toNat = y at h ⊢
        generalize a.significand = x at h ⊢
        by_contra hc
        have hc2 : x * 2 ^ k2 ≤ n2 * y := Nat.le_of_not_lt hc
        have h1 : x * 2 ^ k2 * 2 ^ k1 ≤ n2 * y * 2 ^ k1 := Nat.mul_le_mul_right _ hc2
        have h2 : n1 * y * 2 ^ k2 < x * 2 ^ k1 * 2 ^ k2 :=
          Nat.mul_lt_mul_of_pos_right h (Nat.two_pow_pos _)
        have h4 : n2 * 2 ^ k1 * y ≤ n1 * 2 ^ k2 * y := Nat.mul_le_mul_right _ hle
        have e1 : x * 2 ^ k2 * 2 ^ k1 = x * 2 ^ k1 * 2 ^ k2 := by ring
        have e2 : n2 * y * 2 ^ k1 = n2 * 2 ^ k1 * y := by ring
        have e3 : n1 * y * 2 ^ k2 = n1 * 2 ^ k2 * y := by ring
        omega

theorem setupCamera_active (i : Nat) (w : World) :
    (setupCamera i w).cam.mIsCameraActive = w.cam.mIsCameraActive := by
  unfold setupCamera
  simp only
  split <;> rfl

theorem setMaxRange_active (v : F32) (w : World) :
    (setMaxRange v w).cam.mIsCameraActive = w.cam.mIsCameraActive := by
  unfold setMaxRange setBackgroundColor
  simp only
  repeat' split
  all_goals rfl

theorem initEffects_active (w : World) :
    (initEffects w).cam.mIsCameraActive = w.cam.mIsCameraActive := by
  unfold initEffects setupPostProcessingEffects
  split
  · split
    · rfl
    · simp only [appendEffects_eq]
  · rfl

theorem activateSubCameras_active (c : Camera)
    (h : c.mIsCameraActive = [true, false, false, false, false, false]) :
    (activateSubCameras c).mIsCameraActive
      = [true, c.mSphericalFieldOfViewX.gtConst M_PI_2_num 52,
         c.mSphericalFieldOfViewX.gtConst three_M_PI_2_num 50
           || c.mSphericalFieldOfViewY.gtConst three_M_PI_2_num 50,
         c.mSphericalFieldOfViewX.gtConst M_PI_2_num 52,
         c.mSphericalFieldOfViewY.gtConst phi_num 52,
         c.mSphericalFieldOfViewY.gtConst phi_num 52] := by
  unfold activateSubCameras
  simp only
  generalize c.mSphericalFieldOfViewX.gtConst M_PI_2_num 52 = b1
  generalize c.mSphericalFieldOfViewY.gtConst phi_num 52 = b2
  generalize (c.mSphericalFieldOfViewX.gtConst three_M_PI_2_num 50
    || c.mSphericalFieldOfViewY.gtConst three_M_PI_2_num 50) = b3
  cases b1 <;> cases b2 <;> cases b3 <;>
    simp [h, setAt, CAMERA_ORIENTATION_RIGHT, CAMERA_ORIENTATION_LEFT, CAMERA_ORIENTATION_UP,
      CAMERA_ORIENTATION_DOWN, CAMERA_ORIENTATION_BACK]

theorem setSubCamerasResolution_active {libm : Libm} {lateral vertical : Int} {c c1 : Camera}
    (h : setSubCamerasResolution libm lateral vertical c = Result.ok c1) :
    c1.mIsCameraActive = c.mIsCameraActive := by
  unfold setSubCamerasResolution at h
  dsimp only at h
  generalize (idealResolutions libm (setCorrectionCoefficient vertical c)).bind
    (scaleResolutions lateral vertical) = r at h
  cases r with
  | none => cases h
  | some r =>
    cases h
    unfold setCorrectionCoefficient
    split <;> rfl

theorem setupSphericalSubCameras_active {libm : Libm} {c c1 : Camera}
    (hc : setupSphericalSubCameras libm c = Result.ok c1)
    (h : c.mIsCameraActive = [true, false, false, false, false, false]) :
    c1.mIsCameraActive
      = [true, c.mFieldOfView.gtConst M_PI_2_num 52,
         c.mFieldOfView.gtConst three_M_PI_2_num 50
           || (sphericalFieldOfViewY c).gtConst three_M_PI_2_num 50,
         c.mFieldOfView.gtConst M_PI_2_num 52,
         (sphericalFieldOfViewY c).gtConst phi_num 52,
         (sphericalFieldOfViewY c).gtConst phi_num 52] := by
  unfold setupSphericalSubCameras at hc
  dsimp only at hc
  have h1 : (setSphericalFieldsOfView c).mIsCameraActive
      = [true, false, false, false, false, false] := h
  rw [setSubCamerasResolution_active hc, activateSubCameras_active _ h1]
  rfl

theorem expectedActive_of_settings {a b : Camera} (h : a.settings = b.settings) :
    expectedActive a = expectedActive b := by
  simp only [Camera.settings, Prod.mk.injEq] at h
  unfold expectedActive sphericalFieldOfViewY
  rw [h.1, h.2.1, h.2.2.2.2.1, h.2.2.2.2.2.2.1]

theorem expectedActive_spherical (c : Camera) (hs : c.mIsSpherical = true) :
    expectedActive c
      = [true, c.mFieldOfView.gtConst M_PI_2_num 52,
         c.mFieldOfView.gtConst three_M_PI_2_num 50
           || (sphericalFieldOfViewY c).gtConst three_M_PI_2_num 50,
         c.mFieldOfView.gtConst M_PI_2_num 52,
         (sphericalFieldOfViewY c).gtConst phi_num 52,
         (sphericalFieldOfViewY c).gtConst phi_num 52] := by
  unfold expectedActive
  rw [if_pos hs]

theorem initBegin_active {libm : Libm} {w v : World} (h : initBegin libm w = Result.ok v) :
    v.cam.mIsCameraActive = expectedActive w.cam := by
  unfold initBegin at h
  split at h
  · cases h
  · obtain ⟨u, hu, rfl⟩ := Result.map_eq_ok h
    unfold initParameters
    simp only [setMaxRange_active, setMinRange, setNear, initEffects_active]
    unfold initSubCameras at hu
    have hs : (initResult w).cam.mIsSpherical = w.cam.mIsSpherical := rfl
    rw [hs] at hu
    split at hu
    · rename_i hsph
      obtain ⟨c, hc, rfl⟩ := Result.map_eq_ok hu
      have h1 : ∀ v : World, (setupSphericalPostProcessingEffect v).cam.mIsCameraActive
          = v.cam.mIsCameraActive := by
        intro v; unfold setupSphericalPostProcessingEffect; split <;> rfl
      rw [h1, forActiveCameras_proj (fun w => w.cam.mIsCameraActive) _ setupCamera_active]
      rw [expectedActive_spherical w.cam hsph]
      have hact := @setupSphericalSubCameras_active libm (initResult w).cam c hc rfl
      exact hact
    · rename_i hsph
      have hu1 := Result.ok.inj hu
      rw [← hu1, setupCamera_active]
      unfold expectedActive
      rw [if_neg hsph]
      rfl

theorem initEnd_active (w : World) :
    (initEnd w).cam.mIsCameraActive = w.cam.mIsCameraActive := by
  unfold initEnd setBackgroundColor
  simp only
  split <;> rfl

theorem init_active (libm : Libm) (fuel : Nat) : ∀ (w w1 : World),
    init libm fuel w = Result.ok w1 → w1.cam.mIsCameraActive = expectedActive w.cam := by
  induction fuel with
  | zero => intro w w1 h; simp [init] at h
  | succ n ih =>
    intro w w1 h
    obtain ⟨v, u, hv, hu, rfl⟩ := init_ok h
    rw [initEnd_active]
    rcases setFieldOfViewWith_ok hu with ⟨_, _, u2, hu2, hcam⟩ | ⟨_, _, hcam⟩ | ⟨_, hcam⟩
    · rw [hcam, ih _ _ hu2, expectedActive_of_settings (cleanup_settings _)]
      exact expectedActive_of_settings (initBegin_settings hv)
    · rw [hcam]
      exact initBegin_active hv
    · rw [hcam]
      exact initBegin_active hv

/-- C11, as amended: `init` only activates the needed sub-cameras.  When `init`
returns: for a spherical camera, with `fovX` the field of view and `fovY` the
`float` the source computes for it (`fovX * height` rounded to `float`, divided by
`width` and rounded to `float` again), the front sub-camera is active, right and left
are active exactly when `fovX > pi / 2`, up and down exactly when
`fovY > 1.230959417`, back exactly when `fovX > 3 * pi / 2` or `fovY > 3 * pi / 2`
(comparisons of the value of the float with the real number; they agree with the
comparisons against the doubles `M_PI_2`, `1.230959417` and `3.0 * M_PI_2` the source
makes); hence right and left are active together, up and down together, and back
only when right/left or up/down are.  For a non-spherical camera only the front
sub-camera is active.  `init` does return when the counter of active effects is not
negative (the assertion of line 502), the camera is not a spherical one with a NaN
field of view (where `init` and `setFieldOfView` call each other without end), and a
spherical camera is not higher than wide or has a height of at least 1 (source line
681 divides by the height). -/
theorem init_active_sub_cameras (libm : Libm) (fuel : Nat) (w : World) :
    (∀ w1, init libm fuel w = Result.ok w1 →
      (w.cam.mIsSpherical = true →
        isActive w1.cam CAMERA_ORIENTATION_FRONT = true
        ∧ (isActive w1.cam CAMERA_ORIENTATION_RIGHT = true
            ↔ w.cam.mFieldOfView.exceeds (Real.pi / 2))
        ∧ (isActive w1.cam CAMERA_ORIENTATION_LEFT = true
            ↔ w.cam.mFieldOfView.exceeds (Real.pi / 2))
        ∧ (isActive w1.cam CAMERA_ORIENTATION_UP = true
            ↔ (sphericalFieldOfViewY w.cam).exceeds 1.230959417)
        ∧ (isActive w1.cam CAMERA_ORIENTATION_DOWN = true
            ↔ (sphericalFieldOfViewY w.cam).exceeds 1.230959417)
        ∧ (isActive w1.cam CAMERA_ORIENTATION_BACK = true
            ↔ (w.cam.mFieldOfView.exceeds (3 * Real.pi / 2)
                ∨ (sphericalFieldOfViewY w.cam).exceeds (3 * Real.pi / 2)))
        ∧ isActive w1.cam CAMERA_ORIENTATION_RIGHT = isActive w1.cam CAMERA_ORIENTATION_LEFT
        ∧ isActive w1.cam CAMERA_ORIENTATION_UP = isActive w1.cam CAMERA_ORIENTATION_DOWN
        ∧ (isActive w1.cam CAMERA_ORIENTATION_BACK = true →
            isActive w1.cam CAMERA_ORIENTATION_RIGHT = true
              ∨ isActive w1.cam CAMERA_ORIENTATION_UP = true))
      ∧ (w.cam.mIsSpherical = false →
          w1.cam.mIsCameraActive = [true, false, false, false, false, false])
      ∧ w1.cam.mIsCameraActive = expectedActive w.cam)
    ∧ (0 ≤ w.cam.mNumActivePostProcessingEffects → diverges w.cam = false →
        (w.cam.mIsSpherical = true → w.cam.mHeight ≤ w.cam.mWidth ∨ 1 ≤ w.cam.mHeight) →
        ∃ w1, init libm (fuel + 1) w = Result.ok w1) := by
  refine ⟨fun w1 h => ⟨fun hs => ?_, fun hs => ?_, init_active libm fuel w w1 h⟩,
    init_returns libm fuel w⟩
  · have hflags := (init_active libm fuel w w1 h).trans (expectedActive_spherical w.cam hs)
    have hget : ∀ i, isActive w1.cam i
        = [true, w.cam.mFieldOfView.gtConst M_PI_2_num 52,
           w.cam.mFieldOfView.gtConst three_M_PI_2_num 50
             || (sphericalFieldOfViewY w.cam).gtConst three_M_PI_2_num 50,
           w.cam.mFieldOfView.gtConst M_PI_2_num 52,
           (sphericalFieldOfViewY w.cam).gtConst phi_num 52,
           (sphericalFieldOfViewY w.cam).gtConst phi_num 52].getD i false := by
      intro i
      unfold isActive
      rw [hflags]
    have hback : isActive w1.cam CAMERA_ORIENTATION_BACK = true
        ↔ (w.cam.mFieldOfView.gtConst three_M_PI_2_num 50 = true
            ∨ (sphericalFieldOfViewY w.cam).gtConst three_M_PI_2_num 50 = true) := by
      rw [hget]
      simp [CAMERA_ORIENTATION_BACK]
    have hright : isActive w1.cam CAMERA_ORIENTATION_RIGHT
        = w.cam.mFieldOfView.gtConst M_PI_2_num 52 := by
      rw [hget]; simp [CAMERA_ORIENTATION_RIGHT]
    have hleft : isActive w1.cam CAMERA_ORIENTATION_LEFT
        = w.cam.mFieldOfView.gtConst M_PI_2_num 52 := by
      rw [hget]; simp [CAMERA_ORIENTATION_LEFT]
    have hup : isActive w1.cam CAMERA_ORIENTATION_UP
        = (sphericalFieldOfViewY w.cam).gtConst phi_num 52 := by
      rw [hget]; simp [CAMERA_ORIENTATION_UP]
    have hdown : isActive w1.cam CAMERA_ORIENTATION_DOWN
        = (sphericalFieldOfViewY w.cam).gtConst phi_num 52 := by
      rw [hget]; simp [CAMERA_ORIENTATION_DOWN]
    refine ⟨?_, ?_, ?_, ?_, ?_, ?_, ?_, ?_, ?_⟩
    · rw [hget]; simp [CAMERA_ORIENTATION_FRONT]
    · rw [hright]; exact F32.gtConst_M_PI_2 _
    · rw [hleft]; exact F32.gtConst_M_PI_2 _
    · rw [hup]; exact F32.gtConst_phi _
    · rw [hdown]; exact F32.gtConst_phi _
    · exact hback.trans
        (or_congr (F32.gtConst_three_M_PI_2 _) (F32.gtConst_three_M_PI_2 _))
    · rw [hright, hleft]
    · rw [hup, hdown]
    · intro hb
      rw [hright, hup]
      rcases hback.mp hb with hx | hy
      · exact Or.inl (F32.gtConst_mono (by decide) hx)
      · exact Or.inr (F32.gtConst_mono (by decide) hy)
  · rw [init_active libm fuel w w1 h]
    unfold expectedActive
    simp [hs]

set_option maxRecDepth 8192 in
/-- After `cleanup`, `init` of the sample spherical camera (64x48, field of view
`3.1415927f`, so `fovY = 2.3561945f`) returns and activates front, right, left, up
and down, and not back: its field of view exceeds `pi / 2`. -/
theorem init_active_sub_cameras_witness :
    ∃ w1, init sampleLibm 1 (cleanup sphericalCameraWorld) = Result.ok w1
      ∧ w1.cam.mIsCameraActive = [true, true, false, true, true, true]
      ∧ (cleanup sphericalCameraWorld).cam.mFieldOfView.exceeds (Real.pi / 2) := by
  obtain ⟨w1, hw1⟩ := (init_active_sub_cameras sampleLibm 0 (cleanup sphericalCameraWorld)).2
    (by decide) (by decide) (fun _ => Or.inl (by decide))
  have hclaim := (init_active_sub_cameras sampleLibm 1 (cleanup sphericalCameraWorld)).1 w1 hw1
  have hflags : w1.cam.mIsCameraActive = [true, true, false, true, true, true] := by
    rw [hclaim.2.2]
    decide
  refine ⟨w1, hw1, hflags, ?_⟩
  apply (hclaim.1 (by decide)).2.1.mp
  unfold isActive
  rw [hflags]
  rfl

set_option maxRecDepth 8192 in
/-- C11, the claim as stated fails: with `fovY` the exact quotient
`fovX * height / width`, the up and down sub-cameras are not active exactly when
`fovY > 1.230959417`.  After `init` of the 7x7 spherical camera whose field of view
is `1.2309594f` (bit pattern 1067290644) up and down are active although
`fovX * 7 / 7 = 10326036 / 8388608` does not exceed 1.230959417: `fovX * 7` is
rounded to `float` and the quotient by 7 is the next `float` above `fovX`.  After
`init` of the 4x5 spherical camera whose field of view is `0.98476756f` (bit pattern
1065097658) up and down are not active although `fovX * 5 / 4` exceeds
1.230959417. -/
theorem init_active_sub_cameras_exact_quotient :
    (∃ w1, squareSphericalCamera = Result.ok w1
      ∧ w1.cam.mIsSpherical = true
      ∧ isActive w1.cam CAMERA_ORIENTATION_UP = true
      ∧ isActive w1.cam CAMERA_ORIENTATION_DOWN = true
      ∧ exactFieldOfViewY w1.cam = 10326036 / 8388608
      ∧ ¬ ((1.230959417 : ℚ) < exactFieldOfViewY w1.cam))
    ∧ (∃ w1, uprightSphericalCamera = Result.ok w1
      ∧ w1.cam.mIsSpherical = true
      ∧ isActive w1.cam CAMERA_ORIENTATION_UP = false
      ∧ isActive w1.cam CAMERA_ORIENTATION_DOWN = false
      ∧ exactFieldOfViewY w1.cam = 16521658 / 16777216 * 5 / 4
      ∧ (1.230959417 : ℚ) < exactFieldOfViewY w1.cam) := by
  have h7 : exactFieldOfViewY (squareSphericalCamera.get (by decide)).cam
      = 10326036 / 8388608 := by
    have hs : (squareSphericalCamera.get (by decide)).cam.mFieldOfView.sign = false := by decide
    have hm : (squareSphericalCamera.get (by decide)).cam.mFieldOfView.significand = 10326036 := by
      decide
    have he : (squareSphericalCamera.get (by decide)).cam.mFieldOfView.scale = -23 := by decide
    have hh : (squareSphericalCamera.get (by decide)).cam.mHeight = 7 := by decide
    have hw : (squareSphericalCamera.get (by decide)).cam.mWidth = 7 := by decide
    unfold exactFieldOfViewY
    rw [hs, hm, he, hh, hw]
    norm_num
  have h5 : exactFieldOfViewY (uprightSphericalCamera.get (by decide)).cam
      = 16521658 / 16777216 * 5 / 4 := by
    have hs : (uprightSphericalCamera.get (by decide)).cam.mFieldOfView.sign = false := by decide
    have hm : (uprightSphericalCamera.get (by decide)).cam.mFieldOfView.significand = 16521658 := by
      decide
    have he : (uprightSphericalCamera.get (by decide)).cam.mFieldOfView.scale = -24 := by decide
    have hh : (uprightSphericalCamera.get (by decide)).cam.mHeight = 5 := by decide
    have hw : (uprightSphericalCamera.get (by decide)).cam.mWidth = 4 := by decide
    unfold exactFieldOfViewY
    rw [hs, hm, he, hh, hw]
    norm_num
  refine ⟨⟨squareSphericalCamera.get (by decide), by decide, by decide, by decide, by decide,
      h7, ?_⟩,
    ⟨uprightSphericalCamera.get (by decide), by decide, by decide, by decide, by decide, h5, ?_⟩⟩
  · rw [h7]
    norm_num
  · rw [h5]
    norm_num

/-! ## Rounding a `double` to `float` -/

theorem M_PI_2_value :
    M_PI_2.sign = false ∧ M_PI_2.significand = M_PI_2_num ∧ M_PI_2.scale = -52 := by decide

/-- Sample values of the arithmetic: `1.0 / 3.0` is the double `0x3FD5555555555555`,
which rounds to the float `0x3EAAAAAB`; `(double)64 / 48` rounds to the float
`1.3333334f`; and in `float`, `1.2309594f * 7 / 7` is the next float above
`1.2309594f`. -/
theorem arithmetic_samples :
    F64.div (F64.ofInt 1) (F64.ofInt 3) = F64.ofBits 4599676419421066581
    ∧ (F64.div (F64.ofInt 1) (F64.ofInt 3)).toF32 = F32.ofBits 1051372203
    ∧ (F64.div (F64.ofInt 64) (F64.ofInt 48)).toF32 = F32.ofBits 1068149419
    ∧ F32.mul (F32.ofBits 1067290644) (F32.ofInt 7) = F32.ofBits 1091165714
    ∧ F32.div (F32.mul (F32.ofBits 1067290644) (F32.ofInt 7)) (F32.ofInt 7)
        = F32.ofBits 1067290645 := by
  decide

theorem F32.floorLog2Loop_eq : ∀ (k fuel n : Nat), k ≤ fuel → 2 ^ k ≤ n → n < 2 ^ (k + 1) →
    F32.floorLog2Loop fuel n = k := by
  intro k
  induction k with
  | zero =>
    intro fuel n _ h1 h2
    have hn : n = 1 := by omega
    subst hn
    cases fuel <;> simp [F32.floorLog2Loop]
  | succ k ih =>
    intro fuel n hf h1 h2
    obtain ⟨f, rfl⟩ : ∃ f, fuel = f + 1 := ⟨fuel - 1, by omega⟩
    have hpow : 2 ^ (k + 1) = 2 * 2 ^ k := by ring
    have hpow2 : 2 ^ (k + 1 + 1) = 2 * 2 ^ (k + 1) := by ring
    have hk : 0 < 2 ^ k := Nat.two_pow_pos k
    have h2n : 2 ≤ n := by omega
    simp only [F32.floorLog2Loop, if_pos h2n]
    rw [ih f (n / 2) (by omega) (by omega) (by omega)]

theorem F32.floorLog2_eq {k n : Nat} (h1 : 2 ^ k ≤ n) (h2 : n < 2 ^ (k + 1)) :
    F32.floorLog2 n = k := by
  unfold F32.floorLog2
  apply F32.floorLog2Loop_eq k n n _ h1 h2
  have : k < 2 ^ k := Nat.lt_two_pow k
  omega

theorem F32.roundHalfEven_mono {a b d : Nat} (hd : 0 < d) (h : a ≤ b) :
    F32.roundHalfEven a d ≤ F32.roundHalfEven b d := by
  unfold F32.roundHalfEven
  simp only
  have hq : a / d ≤ b / d := Nat.div_le_div_right h
  have ha := Nat.div_add_mod a d
  have hb := Nat.div_add_mod b d
  have hra := Nat.mod_lt a hd
  have hrb := Nat.mod_lt b hd
  rcases Nat.eq_or_lt_of_le hq with heq | hlt
  · have hr : a % d ≤ b % d := by
      rw [heq] at ha
      omega
    rw [heq]
    split
    · rename_i hup
      rw [if_pos]
      rcases hup with hup | ⟨hup, hodd⟩
      · exact Or.inl (by omega)
      · rcases Nat.eq_or_lt_of_le hr with e | e
        · exact Or.inr ⟨by omega, hodd⟩
        · exact Or.inl (by omega)
    · split <;> omega
  · split <;> split <;> omega

theorem F32.roundHalfEven_scale (n d c : Nat) (hc : 0 < c) :
    F32.roundHalfEven (n * c) (d * c) = F32.roundHalfEven n d := by
  unfold F32.roundHalfEven
  simp only
  have hq : n * c / (d * c) = n / d := Nat.mul_div_mul_right n d hc
  have hr : n * c % (d * c) = n % d * c := by
    rw [Nat.mul_comm n c, Nat.mul_comm d c, Nat.mul_mod_mul_left, Nat.mul_comm]
  rw [hq, hr]
  have h1 : (2 * (n % d * c) > d * c) ↔ (2 * (n % d) > d) := by
    constructor
    · intro h
      by_contra hcon
      have : 2 * (n % d) * c ≤ d * c := Nat.mul_le_mul_right c (by omega)
      have e : 2 * (n % d * c) = 2 * (n % d) * c := by ring
      omega
    · intro h
      have : d * c < 2 * (n % d) * c := Nat.mul_lt_mul_of_pos_right h hc
      have e : 2 * (n % d * c) = 2 * (n % d) * c := by ring
      omega
  have h2 : (2 * (n % d * c) = d * c) ↔ (2 * (n % d) = d) := by
    have e : 2 * (n % d * c) = 2 * (n % d) * c := by ring
    rw [e]
    constructor
    · intro h
      exact Nat.eq_of_mul_eq_mul_right hc h
    · intro h
      rw [h]
  simp only [h1, h2]

theorem F32.roundHalfEven_bounds {n : Nat} (h1 : 4503599627370496 ≤ n) (h2 : n < 9007199254740992) :
    8388608 ≤ F32.roundHalfEven n 536870912 ∧ F32.roundHalfEven n 536870912 ≤ 16777216 := by
  unfold F32.roundHalfEven
  simp only
  have hq1 : 8388608 ≤ n / 536870912 := by omega
  have hq2 : n / 536870912 < 16777216 := by omega
  split <;> omega
theorem F32.round_of_double (n k : Nat) (hn1 : 4503599627370496 ≤ n) (hn2 : n < 9007199254740992)
    (hk1 : 51 ≤ k) (hk2 : k ≤ 62) :
    (F32.round false n 1 (-(k : Int))).exponent.val ≠ 255
    ∧ (F32.round false n 1 (-(k : Int))).sign = false
    ∧ (F32.round false n 1 (-(k : Int))).toRat
        = (F32.roundHalfEven n 536870912 : ℚ) * (2 : ℚ) ^ ((29 : Int) - (k : Int)) := by
  have hn0 : n ≠ 0 := by omega
  have he : ¬ (0 : Int) ≤ -(k : Int) := by omega
  have hlogn : F32.floorLog2 n = 52 := F32.floorLog2_eq (by norm_num; exact hn1) (by norm_num; exact hn2)
  have hlogd : F32.floorLog2 (1 * 2 ^ k) = k :=
    F32.floorLog2_eq (by simp) (by rw [Nat.one_mul, Nat.pow_succ]; have := Nat.two_pow_pos k; omega)
  have htoNat : (- -(k : Int)).toNat = k := by simp
  obtain ⟨hM1, hM2⟩ := F32.roundHalfEven_bounds hn1 hn2
  have hge : (if 0 ≤ ((52 : Nat) : Int) - (k : Int)
        then decide (1 * 2 ^ k * 2 ^ (((52 : Nat) : Int) - (k : Int)).toNat ≤ n)
        else decide (1 * 2 ^ k ≤ n * 2 ^ (-(((52 : Nat) : Int) - (k : Int))).toNat)) = true := by
    split
    · rename_i h
      have ht : (((52 : Nat) : Int) - (k : Int)).toNat = 52 - k := by omega
      have hp : 1 * 2 ^ k * 2 ^ (52 - k) = 4503599627370496 := by
        rw [Nat.one_mul, ← Nat.pow_add]
        have : k + (52 - k) = 52 := by omega
        rw [this]
      rw [ht, hp]
      exact decide_eq_true hn1
    · rename_i h
      have ht : (-(((52 : Nat) : Int) - (k : Int))).toNat = k - 52 := by omega
      have hp : 1 * 2 ^ k = 4503599627370496 * 2 ^ (k - 52) := by
        rw [Nat.one_mul, show (4503599627370496 : Nat) = 2 ^ 52 by norm_num, ← Nat.pow_add]
        congr 1
        omega
      rw [ht, hp]
      exact decide_eq_true (Nat.mul_le_mul_right _ hn1)
  have hu : (((52 : Nat) : Int) - (k : Int)) ⊔ (-126) - 23 = 29 - (k : Int) := by
    rw [max_eq_left (by omega)]
    omega
  have hu0 : ¬ (0 : Int) ≤ 29 - (k : Int) := by omega
  have hut : (-((29 : Int) - (k : Int))).toNat = k - 29 := by omega
  have hm : F32.roundHalfEven (n * 2 ^ (k - 29)) (1 * 2 ^ k) = F32.roundHalfEven n 536870912 := by
    have hp : 1 * 2 ^ k = 536870912 * 2 ^ (k - 29) := by
      rw [Nat.one_mul, show (536870912 : Nat) = 2 ^ 29 by norm_num, ← Nat.pow_add]
      congr 1
      omega
    rw [hp]
    exact F32.roundHalfEven_scale n 536870912 _ (Nat.two_pow_pos _)
  have hround : F32.round false n 1 (-(k : Int))
      = (if F32.roundHalfEven n 536870912 = 16777216 then
          (⟨false, Fin.ofNat (180 - k), Fin.ofNat 0⟩ : F32)
        else ⟨false, Fin.ofNat (179 - k), Fin.ofNat (F32.roundHalfEven n 536870912 - 8388608)⟩) := by
    unfold F32.round
    simp only [hn0, if_false, he, htoNat, hlogn, hlogd]
    simp only [hge, if_true, hu, hu0, if_false, hut, hm]
    generalize F32.roundHalfEven n 536870912 = M at hM1 hM2 ⊢
    by_cases hc : M = 16777216
    · subst hc
      simp only [if_true]
      rw [if_neg (by omega), if_neg (by omega)]
      have h1 : ((29 : Int) - (k : Int) + 1 + 150).toNat = 180 - k := by omega
      rw [h1]
    · simp only [if_neg hc]
      rw [if_neg (by omega), if_neg (by omega)]
      have h1 : ((29 : Int) - (k : Int) + 150).toNat = 179 - k := by omega
      rw [h1]
  rw [hround]
  generalize F32.roundHalfEven n 536870912 = M at hM1 hM2 ⊢
  by_cases hc : M = 16777216
  · subst hc
    rw [if_pos rfl]
    have hexp : (Fin.ofNat (180 - k) : Fin 256).val = 180 - k := by
      simp [Fin.ofNat, Nat.mod_eq_of_lt (show 180 - k < 255 + 1 by omega)]
    have hman : (Fin.ofNat 0 : Fin 8388608).val = 0 := rfl
    have h0 : ¬ (180 - k = 0) := by omega
    refine ⟨by show (Fin.ofNat (180 - k) : Fin 256).val ≠ 255; rw [hexp]; omega, rfl, ?_⟩
    unfold F32.toRat F32.significand F32.scale
    simp only [hexp, hman, Bool.false_eq_true, if_false, if_neg h0]
    have hsc : (((180 - k : Nat) : Int) - 150) = (29 - (k : Int)) + 1 := by omega
    rw [hsc, zpow_add₀ (by norm_num : (2 : ℚ) ≠ 0)]
    norm_num
    ring
  · rw [if_neg hc]
    have hexp : (Fin.ofNat (179 - k) : Fin 256).val = 179 - k := by
      simp [Fin.ofNat, Nat.mod_eq_of_lt (show 179 - k < 255 + 1 by omega)]
    have hman : (Fin.ofNat (M - 8388608) : Fin 8388608).val = M - 8388608 := by
      simp [Fin.ofNat, Nat.mod_eq_of_lt (show M - 8388608 < 8388607 + 1 by omega)]
    have h0 : ¬ (179 - k = 0) := by omega
    refine ⟨by show (Fin.ofNat (179 - k) : Fin 256).val ≠ 255; rw [hexp]; omega, rfl, ?_⟩
    unfold F32.toRat F32.significand F32.scale
    simp only [hexp, hman, Bool.false_eq_true, if_false, if_neg h0]
    have hsc : (((179 - k : Nat) : Int) - 150) = 29 - (k : Int) := by omega
    rw [hsc]
    have hnat : 8388608 + (M - 8388608) = M := by omega
    rw [hnat]
    ring
theorem F64.toF32_clamped (r : F64) (hnan : r.isNaN = false)
    (hlo : double_0_001.key ≤ r.key) (hhi : r.key ≤ M_PI_minus_0_001.key) :
    r.toF32.exponent.val ≠ 255
    ∧ (8589935 : ℚ) / 8589934592 ≤ r.toF32.toRat
    ∧ r.toF32.toRat ≤ (13172600 : ℚ) / 4194304 := by
  have hklo : double_0_001.key = 4562254508917369340 := by decide
  have hkhi : M_PI_minus_0_001.key = 4614254404752232163 := by decide
  rw [hklo] at hlo
  rw [hkhi] at hhi
  obtain ⟨s, E, m⟩ := r
  have hm := m.isLt
  have hE := E.isLt
  cases s with
  | true =>
    exfalso
    simp only [F64.key, F64.magnitude, if_true] at hlo
    omega
  | false =>
    simp only [F64.key, F64.magnitude, Bool.false_eq_true, if_false] at hlo hhi
    have hE1 : 1013 ≤ E.val := by omega
    have hE2 : E.val ≤ 1024 := by omega
    have hinf : F64.isInf ⟨false, E, m⟩ = false := by
      simp only [F64.isInf]
      have : (E.val == 2047) = false := by
        rw [beq_eq_false_iff_ne]
        omega
      rw [this]
      rfl
    have hsig : F64.significand ⟨false, E, m⟩ = 4503599627370496 + m.val := by
      simp only [F64.significand]
      rw [if_neg (by omega)]
    have hscale : F64.scale ⟨false, E, m⟩ = -(((1075 - E.val : Nat) : Int)) := by
      simp only [F64.scale]
      rw [if_neg (by omega)]
      omega
    have hto : F64.toF32 ⟨false, E, m⟩
        = F32.round false (4503599627370496 + m.val) 1 (-(((1075 - E.val : Nat) : Int))) := by
      unfold F64.toF32
      rw [hnan, hinf, hsig, hscale]
      rfl
    rw [hto]
    obtain ⟨hfin, _, hval⟩ := F32.round_of_double (4503599627370496 + m.val) (1075 - E.val)
      (by omega) (by omega) (by omega) (by omega)
    obtain ⟨hM1, hM2⟩ := F32.roundHalfEven_bounds (show 4503599627370496 ≤ 4503599627370496 + m.val
      by omega) (show 4503599627370496 + m.val < 9007199254740992 by omega)
    refine ⟨hfin, ?_, ?_⟩
    · rw [hval]
      by_cases hb : E.val = 1013
      · have hk : ((29 : Int) - ((1075 - E.val : Nat) : Int)) = -33 := by omega
        rw [hk]
        have hmono : F32.roundHalfEven 4611686018427388 536870912
            ≤ F32.roundHalfEven (4503599627370496 + m.val) 536870912 :=
          F32.roundHalfEven_mono (by norm_num) (by omega)
        have hlo2 : F32.roundHalfEven 4611686018427388 536870912 = 8589935 := by decide
        rw [hlo2] at hmono
        have hq : (8589935 : ℚ) ≤ (F32.roundHalfEven (4503599627370496 + m.val) 536870912 : ℚ) := by
          exact_mod_cast hmono
        have hp : (2 : ℚ) ^ (-33 : Int) = 1 / 8589934592 := by norm_num [zpow_neg]
        rw [hp]
        linarith
      · have hk : (-32 : Int) ≤ (29 : Int) - ((1075 - E.val : Nat) : Int) := by omega
        have hpow : (2 : ℚ) ^ (-32 : Int) ≤ (2 : ℚ) ^ ((29 : Int) - ((1075 - E.val : Nat) : Int)) :=
          zpow_le_zpow_right₀ (by norm_num) hk
        have hp : (2 : ℚ) ^ (-32 : Int) = 1 / 4294967296 := by norm_num [zpow_neg]
        rw [hp] at hpow
        have hq : (8388608 : ℚ) ≤ (F32.roundHalfEven (4503599627370496 + m.val) 536870912 : ℚ) := by
          exact_mod_cast hM1
        have hpos : (0 : ℚ) ≤ 1 / 4294967296 := by norm_num
        calc (8589935 : ℚ) / 8589934592 ≤ 8388608 * (1 / 4294967296) := by norm_num
          _ ≤ (F32.roundHalfEven (4503599627370496 + m.val) 536870912 : ℚ) * (1 / 4294967296) :=
            mul_le_mul_of_nonneg_right hq hpos
          _ ≤ _ := mul_le_mul_of_nonneg_left hpow (by positivity)
    · rw [hval]
      by_cases hb : E.val = 1024
      · have hk : ((29 : Int) - ((1075 - E.val : Nat) : Int)) = -22 := by omega
        rw [hk]
        have hmono : F32.roundHalfEven (4503599627370496 + m.val) 536870912
            ≤ F32.roundHalfEven 7071985952214755 536870912 :=
          F32.roundHalfEven_mono (by norm_num) (by omega)
        have hhi2 : F32.roundHalfEven 7071985952214755 536870912 = 13172600 := by decide
        rw [hhi2] at hmono
        have hq : (F32.roundHalfEven (4503599627370496 + m.val) 536870912 : ℚ) ≤ 13172600 := by
          exact_mod_cast hmono
        have hp : (2 : ℚ) ^ (-22 : Int) = 1 / 4194304 := by norm_num [zpow_neg]
        rw [hp]
        linarith
      · have hk : (29 : Int) - ((1075 - E.val : Nat) : Int) ≤ -23 := by omega
        have hpow : (2 : ℚ) ^ ((29 : Int) - ((1075 - E.val : Nat) : Int)) ≤ (2 : ℚ) ^ (-23 : Int) :=
          zpow_le_zpow_right₀ (by norm_num) hk
        have hp : (2 : ℚ) ^ (-23 : Int) = 1 / 8388608 := by norm_num [zpow_neg]
        rw [hp] at hpow
        have hq : (F32.roundHalfEven (4503599627370496 + m.val) 536870912 : ℚ) ≤ 16777216 := by
          exact_mod_cast hM2
        have hpos : (0 : ℚ) ≤ (2 : ℚ) ^ ((29 : Int) - ((1075 - E.val : Nat) : Int)) := by positivity
        calc (F32.roundHalfEven (4503599627370496 + m.val) 536870912 : ℚ)
              * (2 : ℚ) ^ ((29 : Int) - ((1075 - E.val : Nat) : Int))
            ≤ 16777216 * (2 : ℚ) ^ ((29 : Int) - ((1075 - E.val : Nat) : Int)) :=
              mul_le_mul_of_nonneg_right hq hpos
          _ ≤ 16777216 * (1 / 8388608) := mul_le_mul_of_nonneg_left hpow (by norm_num)
          _ ≤ (13172600 : ℚ) / 4194304 := by norm_num

theorem qBound_clamps (v : F64) :
    (qBound double_0_001 v M_PI_minus_0_001).isNaN = false
    ∧ double_0_001.key ≤ (qBound double_0_001 v M_PI_minus_0_001).key
    ∧ (qBound double_0_001 v M_PI_minus_0_001).key ≤ M_PI_minus_0_001.key := by
  have hlo : double_0_001.isNaN = false := by decide
  have hhi : M_PI_minus_0_001.isNaN = false := by decide
  have hlohi : F64.lt double_0_001 M_PI_minus_0_001 = true := by decide
  have hle : double_0_001.key ≤ M_PI_minus_0_001.key := by decide
  unfold qBound
  simp only
  by_cases h1 : F64.lt M_PI_minus_0_001 v = true
  · rw [if_pos h1, if_pos hlohi]
    exact ⟨hhi, hle, le_refl _⟩
  · rw [if_neg h1]
    by_cases h2 : F64.lt double_0_001 v = true
    · rw [if_pos h2]
      simp only [F64.lt, Bool.and_eq_true, Bool.not_eq_true', decide_eq_true_eq] at h1 h2
      obtain ⟨⟨_, hv⟩, hlt⟩ := h2
      refine ⟨hv, le_of_lt hlt, ?_⟩
      by_contra hcon
      exact h1 ⟨⟨hhi, hv⟩, lt_of_not_le hcon⟩
    · rw [if_neg h2]
      exact ⟨hlo, le_refl _, hle⟩

theorem appliedFieldOfViewY_bounds (libm : Libm) (fov : F32) (c : Camera) :
    (appliedFieldOfViewY libm fov c).exponent.val ≠ 255
    ∧ (0.001 : ℝ) ≤ (((appliedFieldOfViewY libm fov c).toRat : ℚ) : ℝ)
    ∧ (((appliedFieldOfViewY libm fov c).toRat : ℚ) : ℝ) ≤ Real.pi - 0.001 := by
  unfold appliedFieldOfViewY
  simp only
  obtain ⟨hnan, hlo, hhi⟩ := qBound_clamps (F64.ofF32 (F64.mul (F64.ofInt 2)
    (libm.atan (F64.div (libm.tan (F64.mul (F64.ofF32 fov) double_0_5))
      (F64.div (F64.ofInt c.mWidth) (F64.ofInt c.mHeight))))).toF32)
  obtain ⟨hfin, h1, h2⟩ := F64.toF32_clamped _ hnan hlo hhi
  refine ⟨hfin, ?_, ?_⟩
  · have h1r : (((8589935 : ℚ) / 8589934592 : ℚ) : ℝ) ≤ _ := Rat.cast_le.mpr h1
    refine le_trans ?_ h1r
    norm_num
  · have h2r : _ ≤ (((13172600 : ℚ) / 4194304 : ℚ) : ℝ) := Rat.cast_le.mpr h2
    refine le_trans h2r ?_
    have hpi := Real.pi_gt_d20
    norm_num
    linarith
/-! ## The field of view of a planar camera -/

theorem foldl_emit (ev : Nat → Event) : ∀ (l : List Nat) (w : World),
    l.foldl (fun w i => if isActive w.cam i then
        ({ w with wren := w.wren.emit (ev i) } : World) else w) w
      = { w with wren := { w.wren with
            trace := w.wren.trace ++ (l.filter (isActive w.cam)).map ev } } := by
  intro l
  induction l with
  | nil =>
    intro w
    simp
  | cons i l ih =>
    intro w
    rw [List.foldl_cons]
    by_cases h : isActive w.cam i = true
    · rw [if_pos h, ih]
      simp [List.filter_cons, h, Wren.emit]
    · rw [if_neg h, ih]
      simp [List.filter_cons, h]

theorem forActiveCameras_emit (ev : Nat → Event) (w : World) :
    forActiveCameras (fun i w => { w with wren := w.wren.emit (ev i) }) w
      = { w with wren := { w.wren with
            trace := w.wren.trace ++ (activeCameras w.cam).map ev } } := by
  unfold forActiveCameras activeCameras
  exact foldl_emit ev _ w

theorem planar_setFieldOfView_eq (libm : Libm) (fuel : Nat) (fov : F32) (w : World)
    (hs : w.cam.mIsSpherical = false) :
    setFieldOfView libm fuel fov w
      = Result.ok
          { cam := { w.cam with mFieldOfView := fov },
            wren := { w.wren with trace := (w.wren.trace
              ++ (activeCameras w.cam).map
                  (fun i => Event.cameraSetFovy i (appliedFieldOfViewY libm fov w.cam))
              ++ (activeCameras w.cam).map
                  (fun i => Event.cameraSetAspectRatio i (appliedAspectRatio w.cam))) } } := by
  unfold setFieldOfView setFieldOfViewWith
  simp only [hs, Bool.false_eq_true, if_false]
  unfold setAspectRatio setFovy
  rw [forActiveCameras_emit, forActiveCameras_emit]
  rfl

/-- C7, as amended: for a non-spherical camera (of any size, hence also for width and
height of at least 1) and every `fov`, `setFieldOfView(fov)` returns, stores `fov` as
the field of view and changes no other member; it gives every active sub-camera
first the vertical field of view
`(float)clamp((float)(2 * atan(tan(fov * 0.5) / (width / height))), 0.001, M_PI - 0.001)`
and then the aspect ratio `(float)((double)width / height)`, where the arithmetic is
that of `double`, `tan` and `atan` are the functions of the mathematics library
(whatever they return) and `(float)` rounds to the nearest `float`; nothing else is
recorded.  The vertical field of view that is applied is a finite `float` whose value
lies in `[0.001, pi - 0.001]`. -/
theorem setFieldOfView_planar (libm : Libm) (fuel : Nat) (fov : F32) (w : World)
    (hs : w.cam.mIsSpherical = false) :
    setFieldOfView libm fuel fov w
      = Result.ok
          { cam := { w.cam with mFieldOfView := fov },
            wren := { w.wren with trace := (w.wren.trace
              ++ (activeCameras w.cam).map
                  (fun i => Event.cameraSetFovy i (appliedFieldOfViewY libm fov w.cam))
              ++ (activeCameras w.cam).map
                  (fun i => Event.cameraSetAspectRatio i (appliedAspectRatio w.cam))) } }
    ∧ (appliedFieldOfViewY libm fov w.cam).exponent.val ≠ 255
    ∧ (0.001 : ℝ) ≤ (((appliedFieldOfViewY libm fov w.cam).toRat : ℚ) : ℝ)
    ∧ (((appliedFieldOfViewY libm fov w.cam).toRat : ℚ) : ℝ) ≤ Real.pi - 0.001 :=
  ⟨planar_setFieldOfView_eq libm fuel fov w hs, appliedFieldOfViewY_bounds libm fov w.cam⟩

set_option maxRecDepth 8192 in
/-- On the sample range finder (64x48) `setFieldOfView(1.0f)` gives the front
sub-camera the vertical field of view `0.7777268f` (bit pattern 1061624090) and the
aspect ratio `1.3333334f` (bit pattern 1068149419). -/
theorem setFieldOfView_planar_witness :
    setFieldOfView sampleLibm 0 F32.one rangeFinderWorld
      = Result.ok
          { cam := { rangeFinderWorld.cam with mFieldOfView := F32.one },
            wren := { rangeFinderWorld.wren with trace := rangeFinderWorld.wren.trace
              ++ [Event.cameraSetFovy 0 (F32.ofBits 1061624090),
                  Event.cameraSetAspectRatio 0 (F32.ofBits 1068149419)] } } := by
  have h := (setFieldOfView_planar sampleLibm 0 F32.one rangeFinderWorld (by decide)).1
  have ha : activeCameras rangeFinderWorld.cam = [0] := by decide
  have hf : appliedFieldOfViewY sampleLibm F32.one rangeFinderWorld.cam = F32.ofBits 1061624090 := by
    decide
  have hr : appliedAspectRatio rangeFinderWorld.cam = F32.ofBits 1068149419 := by decide
  rw [ha, hf, hr] at h
  rw [h]
  simp

set_option maxRecDepth 8192 in
/-- C7, the claim as stated fails: the values applied are `float`s.  On the planar
camera of width 1 and height 3, `setFieldOfView(0.0f)` gives the front sub-camera the
aspect ratio `11184811 / 33554432` (the `float` nearest to 1/3, bit pattern
1051372203), which is not `width / height = 1/3`, and the vertical field of view
`8589935 / 8589934592` (bit pattern 981668463), which is not the
`clamp(2 * atan(tan(0 / 2) / (1 / 3)), 0.001, pi - 0.001) = 0.001` of the claim. -/
theorem setFieldOfView_planar_rounded :
    ∃ w w1, tallCamera = Result.ok w
      ∧ w.cam.mIsSpherical = false ∧ w.cam.mWidth = 1 ∧ w.cam.mHeight = 3
      ∧ setFieldOfView sampleLibm 0 F32.zero w = Result.ok w1
      ∧ w1.wren.trace = w.wren.trace
          ++ [Event.cameraSetFovy 0 (F32.ofBits 981668463),
              Event.cameraSetAspectRatio 0 (F32.ofBits 1051372203)]
      ∧ (F32.ofBits 1051372203).toRat = 11184811 / 33554432
      ∧ (11184811 / 33554432 : ℚ) ≠ 1 / 3
      ∧ (F32.ofBits 981668463).toRat = 8589935 / 8589934592
      ∧ (8589935 / 8589934592 : ℚ) ≠ 0.001
      ∧ max (0.001 : ℝ) (min (2 * Real.arctan (Real.tan (0 / 2) / (1 / 3))) (Real.pi - 0.001))
          = 0.001 := by
  have ht1 : (F32.ofBits 1051372203).toRat = 11184811 / 33554432 := by
    have hs : (F32.ofBits 1051372203).sign = false := by decide
    have hm : (F32.ofBits 1051372203).significand = 11184811 := by decide
    have he : (F32.ofBits 1051372203).scale = -25 := by decide
    unfold F32.toRat
    rw [hs, hm, he]
    norm_num
  have ht2 : (F32.ofBits 981668463).toRat = 8589935 / 8589934592 := by
    have hs : (F32.ofBits 981668463).sign = false := by decide
    have hm : (F32.ofBits 981668463).significand = 8589935 := by decide
    have he : (F32.ofBits 981668463).scale = -33 := by decide
    unfold F32.toRat
    rw [hs, hm, he]
    norm_num
  have hclaim : max (0.001 : ℝ)
      (min (2 * Real.arctan (Real.tan (0 / 2) / (1 / 3))) (Real.pi - 0.001)) = 0.001 := by
    have hpi := Real.pi_gt_three
    rw [zero_div, Real.tan_zero, zero_div, Real.arctan_zero, mul_zero,
      min_eq_left (by linarith), max_eq_left (by norm_num)]
  refine ⟨tallCamera.get (by decide),
    (setFieldOfView sampleLibm 0 F32.zero (tallCamera.get (by decide))).get (by decide),
    by decide, by decide, by decide, by decide, by decide, by decide, ht1, by norm_num, ht2,
    by norm_num, hclaim⟩
end WbWrenCamera
